import Mathlib

/-!
# pgx: statement builder and exec dispatch (`pg_exec.go`)

A shallow embedding of `pg_exec.go`.

* Go strings are `String` (sequences of Unicode code points).
* Go `int` is the 64-bit two's-complement integer: an `Int` kept in range by
  `wrapInt` wherever the source does arithmetic on it.
* A Go slice `[]interface{}` is a header (`Slice`) over a backing array that
  lives in a `Heap`; every function that allocates or writes takes the heap
  and returns the new one, so that sharing of backing arrays is visible.
* Calls made on collaborators (the pool, the transaction, the driver result,
  the diagnostic sink) are recorded as a list of `Event`s.
* What `pg_exec.go` uses without declaring it is a parameter: the capacity the
  runtime picks when `append` has to grow (`growCap`), the case table behind
  `strings.ToLower` (`toLowerRune`), and the package variables and exec
  primitives collected in `Env`.
-/

namespace Pgx

/-! ## Values, slices and the heap -/

/-- A value of Go type `interface{}` as far as this file handles one. -/
inductive Any where
  | null
  | str (s : String)
  | int (i : Int)
  | bool (b : Bool)
deriving DecidableEq, Repr, Inhabited

/-- A slice header of type `[]interface{}`: `nil`, or backing array, offset
of the first element in it, length and capacity. -/
inductive Slice where
  | nil
  | mk (arr off len cap : Nat)
deriving DecidableEq, Repr, Inhabited

/-- Go `len(s)`. -/
def Slice.len : Slice → Nat
  | .nil => 0
  | .mk _ _ l _ => l

/-- Go `cap(s)`. -/
def Slice.cap : Slice → Nat
  | .nil => 0
  | .mk _ _ _ c => c

/-- Go `s == nil`. -/
def Slice.isNil : Slice → Bool
  | .nil => true
  | .mk _ _ _ _ => false

/-- Go `s[:]`: the same backing array, offset, length and capacity (nothing
is copied). -/
def Slice.all : Slice → Slice
  | .nil => .nil
  | .mk a o l c => .mk a o l c

/-- The store of backing arrays: `cells a i` is element `i` of array `a`;
arrays `0 .. next-1` are allocated. -/
structure Heap where
  cells : Nat → Nat → Any
  next : Nat

/-- The empty heap. -/
def Heap.empty : Heap := ⟨fun _ _ => Any.null, 0⟩

/-- The elements a slice shows, in order. -/
def Heap.read (h : Heap) : Slice → List Any
  | .nil => []
  | .mk a o l _ => (List.range l).map (fun i => h.cells a (o + i))

/-- Write `vals` into array `a` from index `start` on. -/
def Heap.store (h : Heap) (a start : Nat) (vals : List Any) : Heap :=
  { h with cells := fun a' i =>
      if a' = a ∧ start ≤ i ∧ i < start + vals.length then vals.getD (i - start) Any.null
      else h.cells a' i }

/-- The slice lives in the heap: its backing array is allocated. -/
def Slice.inHeap (h : Heap) : Slice → Prop
  | .nil => True
  | .mk a _ _ _ => a < h.next

instance (h : Heap) (s : Slice) : Decidable (s.inHeap h) := by
  cases s <;> unfold Slice.inHeap <;> infer_instance

/-- Go `make([]interface{}, 0, c)`: a fresh backing array, length 0. -/
def makeSlice (h : Heap) (c : Nat) : Slice × Heap :=
  (.mk h.next 0 0 c, { h with next := h.next + 1 })

/-- Go `append(s, vals...)`. When the capacity suffices the values are
written into the backing array of `s` right after its last element and the
result shares that array; otherwise a new array is allocated, of the capacity
`growCap (cap s) (len s + len vals)` chosen by the runtime, and the elements
of `s` and `vals` are copied into it. -/
def append (growCap : Nat → Nat → Nat) (h : Heap) (s : Slice) (vals : List Any) :
    Slice × Heap :=
  if s.len + vals.length ≤ s.cap then
    match s with
    | .nil => (.nil, h)
    | .mk a o l c => (.mk a o (l + vals.length) c, h.store a (o + l) vals)
  else
    (.mk h.next 0 (s.len + vals.length) (growCap s.cap (s.len + vals.length)),
      { (h.store h.next 0 (h.read s ++ vals)) with next := h.next + 1 })

/-- The capacity rule of the Go runtime for a slice that has to grow, on small
slices and before the allocator rounds the size up: the needed length when it
exceeds twice the old capacity, else twice the old capacity. Used in the
examples only; the properties hold for every rule. -/
def goGrowCap (oldCap needed : Nat) : Nat :=
  if needed > oldCap + oldCap then needed else oldCap + oldCap

/-! ## Machine integers and formatting -/

/-- Largest Go `int` (64 bit). -/
def maxInt : Int := 9223372036854775807

/-- Smallest Go `int` (64 bit). -/
def minInt : Int := -9223372036854775808

/-- The value is a Go `int`. -/
def isInt (i : Int) : Prop := minInt ≤ i ∧ i ≤ maxInt

instance (i : Int) : Decidable (isInt i) := by unfold isInt; infer_instance

/-- Two's-complement wrap-around of 64-bit `int` arithmetic. -/
def wrapInt (i : Int) : Int :=
  (i + 9223372036854775808) % 18446744073709551616 - 9223372036854775808

/-- Go `fmt.Sprint(i)` for an `int`: its decimal numeral. -/
def Sprint (i : Int) : String := toString i

/-! ## The statement builder -/

/-- Go `type SQL struct { str string; params []interface{} }`. -/
structure SQL where
  str : String
  params : Slice
deriving DecidableEq, Repr

/-- Go `NewSQL`. -/
def NewSQL (str : String) (params : Slice) : SQL :=
  let sql : SQL := ⟨"", .nil⟩
  let sql := { sql with str := str }
  let sql := { sql with params := params }
  sql

/-- Go `SQLStr.AddParams`: `params` is the variadic argument slice. -/
def AddParams (h : Heap) (ss : String) (params : Slice) : SQL × Heap :=
  let sql : SQL := ⟨"", .nil⟩
  let sql := { sql with str := ss }
  if params.len > 0 then
    ({ sql with params := params }, h)
  else
    let (p, h1) := makeSlice h 0
    ({ sql with params := p }, h1)

/-- Go `SQL.ConcatSQL`. -/
def SQL.ConcatSQL (growCap : Nat → Nat → Nat) (h : Heap) (s s2 : SQL) : SQL × Heap :=
  let res := NewSQL s.str s.params.all
  let res := { res with str := res.str ++ s2.str }
  let (p, h1) := append growCap h res.params (h.read s2.params)
  ({ res with params := p }, h1)

/-- The loop of `makeBatchSelectStr`, `for k, v := range data`, from index `k`
on; `length` is `len(data)`. -/
def batchLoop (growCap : Nat → Nat → Nat) (length : Nat) :
    List String → Nat → Slice → String → Int → Heap → Slice × String × Heap
  | [], _, params, buf, _, h => (params, buf, h)
  | v :: rest, k, params, buf, startNo, h =>
    let (params1, h1) := append growCap h params [Any.str v]
    if length = k + 1 then
      batchLoop growCap length rest (k + 1) params1 (buf ++ ("$" ++ Sprint startNo))
        (wrapInt (startNo + 1)) h1
    else
      batchLoop growCap length rest (k + 1) params1 (buf ++ ("$" ++ Sprint startNo ++ ","))
        (wrapInt (startNo + 1)) h1

/-- Go `makeBatchSelectStr`. -/
def makeBatchSelectStr (growCap : Nat → Nat → Nat) (h : Heap) (data : List String)
    (startNo : Int) : (String × Slice) × Heap :=
  let length := data.length
  if length = 0 then
    (("", .nil), h)
  else
    let (params, h1) := makeSlice h length
    let buf := ""
    let buf := buf ++ "("
    let (params2, buf2, h2) := batchLoop growCap length data 0 params buf startNo h1
    let buf3 := buf2 ++ ")"
    ((buf3, params2), h2)

/-- Go `SQL.In`. -/
def SQL.In (growCap : Nat → Nat → Nat) (h : Heap) (s : SQL) (key : String)
    (params : List String) : SQL × Heap :=
  let length : Int := if s.params.isNil then 1 else wrapInt ((s.params.len : Int) + 1)
  let ((str, args), h1) := makeBatchSelectStr growCap h params length
  let sql2 := NewSQL (" where " ++ key ++ "" ++ " in " ++ str ++ " ") args
  let (sql, h2) := s.ConcatSQL growCap h1 sql2
  (sql, h2)

/-- Go `SQL.AndIn`. -/
def SQL.AndIn (growCap : Nat → Nat → Nat) (h : Heap) (s : SQL) (key : String)
    (params : List String) : SQL × Heap :=
  let length : Int := if s.params.isNil then 1 else wrapInt ((s.params.len : Int) + 1)
  let ((str, args), h1) := makeBatchSelectStr growCap h params length
  let sql2 := NewSQL (" and " ++ key ++ "" ++ " in " ++ str ++ " ") args
  let (sql, h2) := s.ConcatSQL growCap h1 sql2
  (sql, h2)

/-- Go `SQL.clone`. -/
def SQL.clone (s : SQL) : SQL := NewSQL s.str s.params.all

/-- Go `SQL.Limit`. -/
def SQL.Limit (s : SQL) (limit : Int) : SQL :=
  let sql := s.clone
  { sql with str := sql.str ++ (" limit " ++ Sprint limit) }

/-- Go `SQL.Offset`. -/
def SQL.Offset (s : SQL) (offset : Int) : SQL :=
  let sql := s.clone
  { sql with str := sql.str ++ (" offset " ++ Sprint offset) }

/-- Go `SQL.OrderBy`; `fmt.Sprint` of a string is the string. -/
def SQL.OrderBy (s : SQL) (order : String) : SQL :=
  let sql := s.clone
  { sql with str := sql.str ++ (" order by " ++ order) }

/-! ## Exec dispatch and the affected-count interpreter -/

/-- Go `unicode.IsSpace`. -/
def isSpace (c : Char) : Bool :=
  let n := c.toNat
  n = 0x09 || n = 0x0A || n = 0x0B || n = 0x0C || n = 0x0D || n = 0x20 || n = 0x85
    || n = 0xA0 || n = 0x1680 || (0x2000 ≤ n && n ≤ 0x200A) || n = 0x2028 || n = 0x2029
    || n = 0x202F || n = 0x205F || n = 0x3000

/-- Go `strings.ToLower`: every code point mapped through `unicode.ToLower`,
the case table of the standard library, which is the parameter
`toLowerRune`. -/
def ToLower (toLowerRune : Char → Char) (s : String) : String :=
  ⟨s.data.map toLowerRune⟩

/-- The case table on ASCII: `A`..`Z` go to `a`..`z`, everything else stays. -/
def asciiToLower (c : Char) : Char := c.toLower

/-- Go `strings.TrimSpace`. -/
def TrimSpace (s : String) : String :=
  ⟨(s.data.dropWhile isSpace).rdropWhile isSpace⟩

/-- Go `strings.HasPrefix`. -/
def HasPrefix (s pre : String) : Bool := pre.data.isPrefixOf s.data

/-- Go `isSQLReplace`. -/
def isSQLReplace (toLowerRune : Char → Char) (sqlStr : String) : Bool :=
  let str := TrimSpace (ToLower toLowerRune sqlStr)
  HasPrefix str "replace"

/-- Go `isSQLInsert`. -/
def isSQLInsert (toLowerRune : Char → Char) (sqlStr : String) : Bool :=
  let str := TrimSpace (ToLower toLowerRune sqlStr)
  HasPrefix str "insert"

/-- Go `isSQLUpdate`. -/
def isSQLUpdate (toLowerRune : Char → Char) (sqlStr : String) : Bool :=
  let str := TrimSpace (ToLower toLowerRune sqlStr)
  HasPrefix str "update"

/-- Go `isSQLDelete`. -/
def isSQLDelete (toLowerRune : Char → Char) (sqlStr : String) : Bool :=
  let str := TrimSpace (ToLower toLowerRune sqlStr)
  HasPrefix str "delete"

/-- A Go `error` value: one made by `errors.New`, or one the driver returned. -/
inductive Error where
  | New (text : String)
  | driver (code : Nat)
deriving DecidableEq, Repr

/-- A Go result pair `(int64, error)`; `none` is the `nil` error. -/
abbrev Outcome := Int × Option Error

/-- A `database/sql` `Result`: what its two methods return. -/
structure Result where
  RowsAffected : Outcome
  LastInsertId : Outcome
deriving DecidableEq, Repr

/-- A call made on a collaborator. -/
inductive Event where
  | println (sqlStr : String) (args : List Any)
  | poolExec (db : Nat) (sqlStr : String) (args : List Any)
  | txExec (tx : Nat) (sqlStr : String) (args : List Any)
  | rowsAffected
  | lastInsertId
deriving DecidableEq, Repr

/-- The event is a call of an exec primitive. -/
def Event.isExec : Event → Bool
  | .poolExec _ _ _ => true
  | .txExec _ _ _ => true
  | _ => false

/-- The event is a call of a method of the driver result. -/
def Event.isConsult : Event → Bool
  | .rowsAffected => true
  | .lastInsertId => true
  | _ => false

/-- Go `affectedResult`: the pair it returns and the methods of `result` it
called. -/
def affectedResult (toLowerRune : Char → Char) (sqlStr : String) (result : Result) :
    Outcome × List Event :=
  if isSQLUpdate toLowerRune sqlStr || isSQLDelete toLowerRune sqlStr then
    (result.RowsAffected, [Event.rowsAffected])
  else if isSQLInsert toLowerRune sqlStr then
    (result.LastInsertId, [Event.lastInsertId])
  else if isSQLReplace toLowerRune sqlStr then
    (result.LastInsertId, [Event.lastInsertId])
  else
    ((0, some (Error.New "only support update insert delete replace")), [])

/-- The dynamic value of the `source interface{}` argument: a `*DB` or a
`*DBTx` (the number is the address of the object it points at), or a value
of any other dynamic type. Two sources are `==` in Go when they are equal
here. -/
inductive Source where
  | db (p : Nat)
  | dbtx (t : Nat)
  | other (tag : Nat)
deriving DecidableEq, Repr

/-- What `execCommon` uses and this file does not declare: the package
variables `blankDB`, `blankDBTx` and `Conf.Log`, the case table of the
standard library, and the exec primitives `p.realPool.Exec` and
`t.realtx.Exec` of the pool and of the transaction objects. -/
structure Env where
  blankDB : Source
  blankDBTx : Source
  ConfLog : Bool
  toLowerRune : Char → Char
  poolExec : Nat → String → List Any → Result × Option Error
  txExec : Nat → String → List Any → Result × Option Error

/-- Go `execCommon`: the pair it returns and the calls it made, in order. -/
def execCommon (env : Env) (h : Heap) (source : Source) (sqlStr : String) (args : Slice) :
    Outcome × List Event :=
  if source = env.blankDB ∨ source = env.blankDBTx then
    ((0, some (Error.New "exec 无法进行 ， 请先初始化数据库")), [])
  else
    let log := if env.ConfLog then [Event.println sqlStr (h.read args)] else []
    match source with
    | .db p =>
      let (result, err) := env.poolExec p sqlStr (h.read args)
      let log := log ++ [Event.poolExec p sqlStr (h.read args)]
      match err with
      | some e => ((0, some e), log)
      | none =>
        let (out, ev) := affectedResult env.toLowerRune sqlStr result
        (out, log ++ ev)
    | .dbtx t =>
      let (result, err) := env.txExec t sqlStr (h.read args)
      let log := log ++ [Event.txExec t sqlStr (h.read args)]
      match err with
      | some e => ((0, some e), log)
      | none =>
        let (out, ev) := affectedResult env.toLowerRune sqlStr result
        (out, log ++ ev)
    | .other _ => ((0, some (Error.New "only support DbPool , DbTx")), log)

/-- Go `SQL.Exec`. -/
def SQL.Exec (env : Env) (h : Heap) (s : SQL) (source : Source) : Outcome × List Event :=
  let (n, err) := execCommon env h source s.str s.params
  (n, err)

/-! ## Definitions used to state the properties -/

/-- The placeholders of a batch of `n` values numbered from `k` on: `$k`,
`$k+1`, ..., the sums taken in 64-bit `int` arithmetic. -/
def placeholders (k : Int) (n : Nat) : List String :=
  (List.range n).map (fun (i : Nat) => "$" ++ Sprint (wrapInt (k + (i : Int))))

/-- The leading token of a statement: the text lower-cased and trimmed, up to
its first white space. -/
def leadingToken (toLowerRune : Char → Char) (sqlStr : String) : String :=
  ⟨(TrimSpace (ToLower toLowerRune sqlStr)).data.takeWhile (fun c => !isSpace c)⟩

/-- A slice as the Go runtime keeps it: its array is allocated, the length is
at most the capacity, and the capacity is below the largest `int`. -/
def Slice.valid (h : Heap) (s : Slice) : Prop :=
  s.inHeap h ∧ s.len ≤ s.cap ∧ (s.cap : Int) < maxInt

instance (h : Heap) (s : Slice) : Decidable (s.valid h) := by
  unfold Slice.valid; infer_instance

/-- The statement text as the classifiers see it. -/
def normalized (toLowerRune : Char → Char) (sqlStr : String) : String :=
  TrimSpace (ToLower toLowerRune sqlStr)

/-- The four verbs `affectedResult` knows. -/
def verbs : List String := ["update", "delete", "insert", "replace"]

/-- What `execCommon` writes to the diagnostic sink before it dispatches. -/
def logged (env : Env) (h : Heap) (sqlStr : String) (args : Slice) : List Event :=
  if env.ConfLog then [Event.println sqlStr (h.read args)] else []

/-- The number of `$` characters of a text. -/
def dollars (s : String) : Nat := s.data.count '$'

/-- The start index `In` and `AndIn` compute for the placeholders of their
batch. -/
def nextIndex (s : Slice) : Int :=
  if s.isNil then 1 else wrapInt ((s.len : Int) + 1)

/-- The body `In` and `AndIn` share; `conn` is the connective, ` where ` or
` and `. -/
def batchClause (conn : String) (growCap : Nat → Nat → Nat) (h : Heap) (s : SQL)
    (key : String) (params : List String) : SQL × Heap :=
  s.ConcatSQL growCap (makeBatchSelectStr growCap h params (nextIndex s.params)).2
    (NewSQL (conn ++ key ++ "" ++ " in "
        ++ (makeBatchSelectStr growCap h params (nextIndex s.params)).1.1 ++ " ")
      (makeBatchSelectStr growCap h params (nextIndex s.params)).1.2)

/-- The placeholder list of `n` values numbered `k`, `k+1`, ... (plain sums):
`($k,$k+1,...)`. -/
def batchText (k : Int) (n : Nat) : String :=
  "(" ++ ",".intercalate ((List.range n).map (fun (i : Nat) => "$" ++ Sprint (k + (i : Int))))
    ++ ")"

/-- A heap with two arrays: array 0 holds `"x"`, `"y"`, array 1 holds `"b"`. -/
def heapShared : Heap :=
  { (Heap.empty.store 0 0 [Any.str "x", Any.str "y"]).store 1 0 [Any.str "b"] with next := 2 }

/-- A statement over `arr[:1]` of array 0: one parameter, capacity 2. -/
def sqlHead : SQL := NewSQL "A" (.mk 0 0 1 2)

/-- A statement over array 1. -/
def sqlMid : SQL := NewSQL "B" (.mk 1 0 1 1)

/-- A statement over `arr[1:]` of array 0. -/
def sqlTail : SQL := NewSQL "C" (.mk 0 1 1 1)

/-! ## Concrete statements used in the examples -/

/-- A heap with one array holding `"x"`, `"y"`. -/
def heapXY : Heap :=
  { Heap.empty.store 0 0 [Any.str "x", Any.str "y"] with next := 1 }

/-- A statement with the two parameters of `heapXY`. -/
def sqlXY : SQL := NewSQL "select * from t where a=$1 and b=$2" (.mk 0 0 2 2)

/-- A heap with three arrays: array 0 holds `"x"` and has room for three more
elements, array 1 holds `"b"`, array 2 holds `"c"`. -/
def heapBranch : Heap :=
  { ((Heap.empty.store 0 0 [Any.str "x"]).store 1 0 [Any.str "b"]).store 2 0 [Any.str "c"]
    with next := 3 }

/-- The base statement of the branch: one parameter, capacity 4. -/
def sqlBase : SQL := NewSQL "select * from t where x=$1" (.mk 0 0 1 4)

/-- First continuation. -/
def sqlB : SQL := NewSQL " and y=$2" (.mk 1 0 1 1)

/-- Second continuation. -/
def sqlC : SQL := NewSQL " and z=$2" (.mk 2 0 1 1)

/-- A driver result with 3 rows affected and last identifier 17. -/
def result317 : Result := ⟨(3, none), (17, none)⟩

/-- An environment for the examples: the blank sentinels are the pool and the
transaction at address 0, logging is off, and both exec primitives fail with
driver error 7 on the text `boom` and succeed with `result317` otherwise. -/
def envDemo : Env where
  blankDB := .db 0
  blankDBTx := .dbtx 0
  ConfLog := false
  toLowerRune := asciiToLower
  poolExec := fun _ sqlStr _ =>
    if sqlStr = "boom" then (⟨(0, none), (0, none)⟩, some (Error.driver 7)) else (result317, none)
  txExec := fun _ sqlStr _ =>
    if sqlStr = "boom" then (⟨(0, none), (0, none)⟩, some (Error.driver 7)) else (result317, none)

/-! ## Lemmas on the heap and on the batch loop -/

theorem range_map_getD (vals : List Any) (d : Any) :
    (List.range vals.length).map (fun i => vals.getD i d) = vals := by
  apply List.ext_getElem
  · simp
  · intro i h1 h2
    simp [List.getD_eq_getElem?_getD, List.getElem?_eq_getElem h2]

theorem Heap.read_length (h : Heap) (s : Slice) : (h.read s).length = s.len := by
  cases s <;> simp [Heap.read, Slice.len]

theorem Heap.store_cells_at (h : Heap) (a st : Nat) (vals : List Any) (i : Nat)
    (hi : i < vals.length) : (h.store a st vals).cells a (st + i) = vals.getD i Any.null := by
  simp [Heap.store, hi]

theorem Heap.store_cells_below (h : Heap) (a st : Nat) (vals : List Any) (i : Nat)
    (hi : i < st) : (h.store a st vals).cells a i = h.cells a i := by
  simp [Heap.store]
  intro h1
  omega

theorem Heap.store_cells_other (h : Heap) (a a' st : Nat) (vals : List Any) (i : Nat)
    (ha : a' ≠ a) : (h.store a st vals).cells a' i = h.cells a' i := by
  simp [Heap.store, ha]

theorem Heap.read_store_fresh (h : Heap) (a : Nat) (vals : List Any) (c : Nat) :
    (h.store a 0 vals).read (.mk a 0 vals.length c) = vals := by
  simp only [Heap.read]
  conv_rhs => rw [← range_map_getD vals Any.null]
  apply List.map_congr_left
  intro i hi
  rw [Heap.store_cells_at h a 0 vals i (by simpa using hi)]

theorem Heap.read_store_extend (h : Heap) (a o l c : Nat) (vals : List Any) :
    (h.store a (o + l) vals).read (.mk a o (l + vals.length) c)
      = h.read (.mk a o l c) ++ vals := by
  simp only [Heap.read, List.range_add, List.map_append, List.map_map]
  congr 1
  · apply List.map_congr_left
    intro i hi
    exact Heap.store_cells_below h a (o + l) vals (o + i) (by simp at hi; omega)
  · conv_rhs => rw [← range_map_getD vals Any.null]
    apply List.map_congr_left
    intro i hi
    simp only [Function.comp]
    rw [← Nat.add_assoc]
    exact Heap.store_cells_at h a (o + l) vals i (by simpa using hi)

/-- What `append` returns shows the elements of `s` followed by `vals`. -/
theorem append_read (g : Nat → Nat → Nat) (h : Heap) (s : Slice) (vals : List Any) :
    (append g h s vals).2.read (append g h s vals).1 = h.read s ++ vals := by
  unfold append
  split
  · rename_i hle
    cases s with
    | nil =>
      simp [Slice.len, Slice.cap] at hle
      simp [Heap.read, hle]
    | mk a o l c => exact Heap.read_store_extend h a o l c vals
  · have := Heap.read_store_fresh h h.next (h.read s ++ vals) (g s.cap (s.len + vals.length))
    simp only [List.length_append, Heap.read_length] at this
    simpa [Heap.read] using this

theorem wrapInt_of_isInt (i : Int) (h : isInt i) : wrapInt i = i := by
  unfold isInt minInt maxInt at h
  unfold wrapInt
  omega

theorem isInt_wrapInt (i : Int) : isInt (wrapInt i) := by
  unfold isInt minInt maxInt wrapInt
  omega

theorem wrapInt_succ (s : Int) (i : Nat) :
    wrapInt (wrapInt (s + 1) + (i : Int)) = wrapInt (s + ((i + 1 : Nat) : Int)) := by
  unfold wrapInt
  push_cast
  omega

theorem intercalate_go_append (x acc sep : String) (l : List String) :
    String.intercalate.go (x ++ acc) sep l = x ++ String.intercalate.go acc sep l := by
  induction l generalizing acc with
  | nil => simp [String.intercalate.go]
  | cons a l ih =>
    simp only [String.intercalate.go]
    rw [← ih]
    simp only [String.append_assoc]

theorem intercalate_cons_cons (sep a b : String) (l : List String) :
    sep.intercalate (a :: b :: l) = a ++ sep ++ sep.intercalate (b :: l) := by
  show String.intercalate.go (a ++ sep ++ b) sep l = a ++ sep ++ String.intercalate.go b sep l
  rw [← intercalate_go_append]

theorem placeholders_succ (k : Int) (n : Nat) (hk : isInt k) :
    placeholders k (n + 1) = ("$" ++ Sprint k) :: placeholders (wrapInt (k + 1)) n := by
  unfold placeholders
  rw [List.range_succ_eq_map]
  simp only [List.map_cons, List.map_map]
  congr 1
  · simp [wrapInt_of_isInt k hk]
  · apply List.map_congr_left
    intro i _
    simp only [Function.comp]
    rw [wrapInt_succ]

theorem batchLoop_spec (g : Nat → Nat → Nat) (length : Nat) (rest : List String) :
    ∀ (k a : Nat) (buf : String) (startNo : Int) (h : Heap),
      k + rest.length = length → isInt startNo →
      (batchLoop g length rest k (.mk a 0 k length) buf startNo h).1 = .mk a 0 length length
      ∧ (batchLoop g length rest k (.mk a 0 k length) buf startNo h).2.2.read
            (.mk a 0 length length)
          = h.read (.mk a 0 k length) ++ rest.map Any.str
      ∧ (batchLoop g length rest k (.mk a 0 k length) buf startNo h).2.1
          = buf ++ ",".intercalate (placeholders startNo rest.length)
      ∧ (batchLoop g length rest k (.mk a 0 k length) buf startNo h).2.2.next = h.next
      ∧ (∀ a' i, a' ≠ a →
          (batchLoop g length rest k (.mk a 0 k length) buf startNo h).2.2.cells a' i
            = h.cells a' i) := by
  induction rest with
  | nil =>
    intro k a buf startNo h hk _
    simp at hk
    subst hk
    simp [batchLoop, placeholders, String.intercalate]
  | cons v rest ih =>
    intro k a buf startNo h hk hs
    simp only [List.length_cons] at hk
    have hle : k + 1 ≤ length := by omega
    have happ : append g h (.mk a 0 k length) [Any.str v]
        = (.mk a 0 (k + 1) length, h.store a (0 + k) [Any.str v]) := by
      simp [append, Slice.len, Slice.cap, hle]
    have hread := Heap.read_store_extend h a 0 k length [Any.str v]
    simp only [List.length_singleton] at hread
    have hih := ih (k + 1) a
    simp only [batchLoop, happ]
    cases rest with
    | nil =>
      have hlast : length = k + 1 := by simp at hk; omega
      simp only [hlast, if_true]
      simp only [batchLoop, hlast] at hread ⊢
      refine ⟨trivial, ?_, ?_, rfl, ?_⟩
      · simpa using hread
      · rw [List.length_singleton, placeholders_succ startNo 0 hs]
        rfl
      · intro a' i ha
        exact Heap.store_cells_other h a a' _ _ i ha
    | cons w rest =>
      have hne : ¬ length = k + 1 := by simp at hk; omega
      simp only [hne, if_false]
      obtain ⟨h1, h2, h3, h4, h5⟩ := hih (buf ++ ("$" ++ Sprint startNo ++ ","))
        (wrapInt (startNo + 1)) (h.store a (0 + k) [Any.str v]) (by omega) (isInt_wrapInt _)
      refine ⟨h1, ?_, ?_, ?_, ?_⟩
      · rw [h2, hread]
        simp
      · rw [h3]
        simp only [List.length_cons]
        rw [placeholders_succ startNo _ hs, placeholders_succ _ _ (isInt_wrapInt _),
          intercalate_cons_cons, ← placeholders_succ _ _ (isInt_wrapInt _)]
        simp only [String.append_assoc]
      · rw [h4]; rfl
      · intro a' i ha
        rw [h5 a' i ha]
        exact Heap.store_cells_other h a a' _ _ i ha

theorem Slice.all_eq (s : Slice) : s.all = s := by
  cases s <;> rfl

theorem placeholders_length (k : Int) (n : Nat) : (placeholders k n).length = n := by
  simp [placeholders]

theorem placeholders_of_le (k : Int) (n : Nat) (hk : isInt k)
    (hle : k + (n : Int) - 1 ≤ maxInt) :
    placeholders k n = (List.range n).map (fun (i : Nat) => "$" ++ Sprint (k + (i : Int))) := by
  unfold placeholders
  apply List.map_congr_left
  intro i hi
  have hi2 : i < n := by simpa using hi
  rw [wrapInt_of_isInt]
  unfold isInt minInt maxInt at *
  omega

/-- What `makeBatchSelectStr` returns on a non-empty batch: the slice over the
fresh array, the text, the values, and the cells it leaves alone. -/
theorem makeBatchSelectStr_cons (g : Nat → Nat → Nat) (h : Heap) (data : List String)
    (startNo : Int) (hne : data ≠ []) (hs : isInt startNo) :
    (makeBatchSelectStr g h data startNo).1.2 = .mk h.next 0 data.length data.length
    ∧ (makeBatchSelectStr g h data startNo).1.1
        = "(" ++ ",".intercalate (placeholders startNo data.length) ++ ")"
    ∧ (makeBatchSelectStr g h data startNo).2.read (.mk h.next 0 data.length data.length)
        = data.map Any.str
    ∧ (makeBatchSelectStr g h data startNo).2.next = h.next + 1
    ∧ (∀ a i, a ≠ h.next → (makeBatchSelectStr g h data startNo).2.cells a i = h.cells a i) := by
  have hlen : ¬ data.length = 0 := by
    intro h0
    exact hne (List.length_eq_zero.mp h0)
  obtain ⟨h1, h2, h3, h4, h5⟩ := batchLoop_spec g data.length data 0 h.next ("" ++ "(")
    startNo { h with next := h.next + 1 } (by simp) hs
  simp only [makeBatchSelectStr, hlen, if_false, makeSlice]
  refine ⟨h1, ?_, ?_, h4, ?_⟩
  · rw [h3]; rfl
  · rw [h2]; simp [Heap.read]
  · intro a i ha
    rw [h5 a i ha]

theorem makeBatchSelectStr_nil (g : Nat → Nat → Nat) (h : Heap) (startNo : Int) :
    makeBatchSelectStr g h [] startNo = (("", .nil), h) := by
  simp [makeBatchSelectStr]

theorem makeBatchSelectStr_frame (g : Nat → Nat → Nat) (h : Heap) (data : List String)
    (startNo : Int) (hs : isInt startNo) (s : Slice) (hin : s.inHeap h) :
    (makeBatchSelectStr g h data startNo).2.read s = h.read s := by
  cases data with
  | nil => rw [makeBatchSelectStr_nil]
  | cons v rest =>
    obtain ⟨_, _, _, _, h5⟩ := makeBatchSelectStr_cons g h (v :: rest) startNo (by simp) hs
    cases s with
    | nil => rfl
    | mk a o l c =>
      simp only [Heap.read]
      apply List.map_congr_left
      intro i _
      apply h5
      simp only [Slice.inHeap] at hin
      omega

theorem makeBatchSelectStr_read (g : Nat → Nat → Nat) (h : Heap) (data : List String)
    (startNo : Int) (hs : isInt startNo) :
    (makeBatchSelectStr g h data startNo).2.read (makeBatchSelectStr g h data startNo).1.2
      = data.map Any.str := by
  cases data with
  | nil => rw [makeBatchSelectStr_nil]; rfl
  | cons v rest =>
    obtain ⟨h1, _, h3, _, _⟩ := makeBatchSelectStr_cons g h (v :: rest) startNo (by simp) hs
    rw [h1, h3]

theorem startIndex_isInt (h : Heap) (s : Slice) (hv : s.valid h) :
    isInt ((s.len : Int) + 1) := by
  obtain ⟨_, hle, hcap⟩ := hv
  have h2 : (s.len : Int) ≤ (s.cap : Int) := by exact_mod_cast hle
  unfold maxInt at hcap
  unfold isInt minInt maxInt
  constructor <;> omega
theorem startIndex_eq (h : Heap) (s : Slice) (hv : s.valid h) :
    (if s.isNil then (1 : Int) else wrapInt ((s.len : Int) + 1)) = (s.len : Int) + 1 := by
  have hint := startIndex_isInt h s hv
  cases s with
  | nil => simp only [Slice.isNil, Slice.len, if_true]; rfl
  | mk a o l c =>
    simp only [Slice.isNil, Bool.false_eq_true, if_false]
    exact wrapInt_of_isInt _ hint

/-- What `ConcatSQL` returns shows the parameters of the receiver followed by
those of the argument. -/
theorem ConcatSQL_read (g : Nat → Nat → Nat) (h : Heap) (a b : SQL) :
    (a.ConcatSQL g h b).2.read (a.ConcatSQL g h b).1.params
      = h.read a.params ++ h.read b.params := by
  have := append_read g h a.params (h.read b.params)
  simpa [SQL.ConcatSQL, NewSQL, Slice.all_eq] using this

theorem placeholders_three_two : "(" ++ ",".intercalate (placeholders 3 2) ++ ")" = "($3,$4)" := by
  decide

/-! ## Lemmas on the classifiers and on the dispatch -/

theorem leadingToken_hasPrefix (lower : Char → Char) (sqlStr w : String)
    (h : leadingToken lower sqlStr = w) :
    HasPrefix (TrimSpace (ToLower lower sqlStr)) w = true := by
  subst h
  simp only [HasPrefix, leadingToken]
  rw [ List.isPrefixOf_iff_prefix]
  exact List.takeWhile_prefix _

theorem HasPrefix_head (n p : String) (c : Char) (cs : List Char) (hp : p.data = c :: cs)
    (h : HasPrefix n p = true) : n.data.head? = some c := by
  simp only [HasPrefix, hp] at h
  cases hn : n.data with
  | nil => simp [hn, List.isPrefixOf] at h
  | cons d ds =>
    simp only [hn, List.isPrefixOf, Bool.and_eq_true, beq_iff_eq] at h
    simp [h.1]

theorem HasPrefix_excl (n p q : String) (c d : Char) (cs ds : List Char)
    (hp : p.data = c :: cs) (hq : q.data = d :: ds) (hcd : c ≠ d)
    (h : HasPrefix n p = true) : HasPrefix n q = false := by
  cases hq2 : HasPrefix n q with
  | false => rfl
  | true =>
    have h1 := HasPrefix_head n p c cs hp h
    have h2 := HasPrefix_head n q d ds hq hq2
    rw [h1] at h2
    exact absurd (Option.some.inj h2) hcd

theorem logged_no_exec (env : Env) (h : Heap) (sqlStr : String) (args : Slice) :
    (logged env h sqlStr args).filter Event.isExec = [] := by
  unfold logged
  split <;> simp [Event.isExec]

theorem logged_no_consult (env : Env) (h : Heap) (sqlStr : String) (args : Slice) :
    (logged env h sqlStr args).filter Event.isConsult = [] := by
  unfold logged
  split <;> simp [Event.isConsult]

theorem affectedResult_no_exec (lower : Char → Char) (sqlStr : String) (result : Result) :
    (affectedResult lower sqlStr result).2.filter Event.isExec = [] := by
  unfold affectedResult
  split
  · simp [Event.isExec]
  · split
    · simp [Event.isExec]
    · split <;> simp [Event.isExec]

theorem execCommon_db (env : Env) (h : Heap) (p : Nat) (sqlStr : String) (args : Slice)
    (h1 : Source.db p ≠ env.blankDB) (h2 : Source.db p ≠ env.blankDBTx) :
    execCommon env h (.db p) sqlStr args
      = match (env.poolExec p sqlStr (h.read args)).2 with
        | some e => ((0, some e),
            logged env h sqlStr args ++ [Event.poolExec p sqlStr (h.read args)])
        | none =>
          ((affectedResult env.toLowerRune sqlStr (env.poolExec p sqlStr (h.read args)).1).1,
            logged env h sqlStr args ++ [Event.poolExec p sqlStr (h.read args)]
              ++ (affectedResult env.toLowerRune sqlStr
                    (env.poolExec p sqlStr (h.read args)).1).2) := by
  simp only [execCommon, h1, h2, or_self, if_false, logged]

theorem execCommon_dbtx (env : Env) (h : Heap) (t : Nat) (sqlStr : String) (args : Slice)
    (h1 : Source.dbtx t ≠ env.blankDB) (h2 : Source.dbtx t ≠ env.blankDBTx) :
    execCommon env h (.dbtx t) sqlStr args
      = match (env.txExec t sqlStr (h.read args)).2 with
        | some e => ((0, some e),
            logged env h sqlStr args ++ [Event.txExec t sqlStr (h.read args)])
        | none =>
          ((affectedResult env.toLowerRune sqlStr (env.txExec t sqlStr (h.read args)).1).1,
            logged env h sqlStr args ++ [Event.txExec t sqlStr (h.read args)]
              ++ (affectedResult env.toLowerRune sqlStr
                    (env.txExec t sqlStr (h.read args)).1).2) := by
  simp only [execCommon, h1, h2, or_self, if_false, logged]

theorem dollars_append (a b : String) : dollars (a ++ b) = dollars a + dollars b := by
  simp [dollars, List.count_append]

theorem digitChar_fin_ne_dollar : ∀ m : Fin 10, Nat.digitChar m.val ≠ '$' := by
  decide

theorem digitChar_ne_dollar (n : Nat) : Nat.digitChar (n % 10) ≠ '$' :=
  digitChar_fin_ne_dollar ⟨n % 10, Nat.mod_lt n (by decide)⟩

theorem toDigitsCore_count (fuel : Nat) :
    ∀ (n : Nat) (acc : List Char),
      (Nat.toDigitsCore 10 fuel n acc).count '$' = acc.count '$' := by
  induction fuel with
  | zero => intro n acc; simp [Nat.toDigitsCore]
  | succ f ih =>
    intro n acc
    simp only [Nat.toDigitsCore]
    split
    · simp [List.count_cons, digitChar_ne_dollar n]
    · rw [ih]
      simp [List.count_cons, digitChar_ne_dollar n]

theorem dollars_natRepr (n : Nat) : dollars (Nat.repr n) = 0 := by
  simp [dollars, Nat.repr, Nat.toDigits, toDigitsCore_count, List.asString]

theorem dollars_Sprint (i : Int) : dollars (Sprint i) = 0 := by
  cases i with
  | ofNat m => exact dollars_natRepr m
  | negSucc m =>
    show dollars ("-" ++ Nat.repr (Nat.succ m)) = 0
    rw [dollars_append, dollars_natRepr]
    rfl

theorem In_eq_batchClause (g : Nat → Nat → Nat) (h : Heap) (s : SQL) (key : String)
    (params : List String) : s.In g h key params = batchClause " where " g h s key params :=
  rfl

theorem AndIn_eq_batchClause (g : Nat → Nat → Nat) (h : Heap) (s : SQL) (key : String)
    (params : List String) : s.AndIn g h key params = batchClause " and " g h s key params :=
  rfl

theorem isInt_nextIndex (s : Slice) : isInt (nextIndex s) := by
  unfold nextIndex
  split
  · decide
  · exact isInt_wrapInt _

theorem nextIndex_eq (s : Slice) (hlen : (s.len : Int) < maxInt) :
    nextIndex s = (s.len : Int) + 1 := by
  unfold nextIndex
  cases s with
  | nil => simp only [Slice.isNil, Slice.len, if_true]; rfl
  | mk a o l c =>
    simp only [Slice.isNil, Bool.false_eq_true, if_false]
    apply wrapInt_of_isInt
    unfold maxInt at hlen
    unfold isInt minInt maxInt
    constructor <;> omega

theorem append_len (g : Nat → Nat → Nat) (h : Heap) (s : Slice) (vals : List Any) :
    (append g h s vals).1.len = s.len + vals.length := by
  unfold append
  split
  · rename_i hle
    cases s with
    | nil =>
      simp [Slice.len, Slice.cap] at hle
      simp [Slice.len, hle]
    | mk a o l c => rfl
  · rfl

theorem append_next (g : Nat → Nat → Nat) (h : Heap) (s : Slice) (vals : List Any) :
    h.next ≤ (append g h s vals).2.next := by
  unfold append
  split
  · cases s <;> simp [Heap.store]
  · simp

theorem append_inHeap (g : Nat → Nat → Nat) (h : Heap) (s : Slice) (vals : List Any)
    (hin : s.inHeap h) : (append g h s vals).1.inHeap (append g h s vals).2 := by
  unfold append
  split
  · cases s with
    | nil => trivial
    | mk a o l c => simpa [Slice.inHeap, Heap.store] using hin
  · simp [Slice.inHeap]

theorem makeBatchSelectStr_next (g : Nat → Nat → Nat) (h : Heap) (data : List String)
    (k : Int) (hk : isInt k) : h.next ≤ (makeBatchSelectStr g h data k).2.next := by
  cases data with
  | nil => rw [makeBatchSelectStr_nil]
  | cons v rest =>
    rw [(makeBatchSelectStr_cons g h (v :: rest) k (by simp) hk).2.2.2.1]
    omega

theorem makeBatchSelectStr_len (g : Nat → Nat → Nat) (h : Heap) (data : List String)
    (k : Int) (hk : isInt k) : (makeBatchSelectStr g h data k).1.2.len = data.length := by
  cases data with
  | nil => rw [makeBatchSelectStr_nil]; rfl
  | cons v rest =>
    rw [(makeBatchSelectStr_cons g h (v :: rest) k (by simp) hk).1]
    rfl

/-- The text of `makeBatchSelectStr` depends on the number of values and on
the start index only. -/
theorem makeBatchSelectStr_text_congr (g g' : Nat → Nat → Nat) (h h' : Heap)
    (data data' : List String) (k : Int) (hk : isInt k) (hl : data.length = data'.length) :
    (makeBatchSelectStr g h data k).1.1 = (makeBatchSelectStr g' h' data' k).1.1 := by
  cases data with
  | nil =>
    have : data' = [] := List.length_eq_zero.mp hl.symm
    subst this
    rw [makeBatchSelectStr_nil, makeBatchSelectStr_nil]
  | cons v rest =>
    have hne : data' ≠ [] := by
      intro h0
      subst h0
      simp at hl
    rw [(makeBatchSelectStr_cons g h (v :: rest) k (by simp) hk).2.1,
      (makeBatchSelectStr_cons g' h' data' k hne hk).2.1, hl]

theorem makeBatchSelectStr_batchText (g : Nat → Nat → Nat) (h : Heap) (data : List String)
    (k : Int) (hne : data ≠ []) (hk : isInt k) (hle : k + (data.length : Int) - 1 ≤ maxInt) :
    (makeBatchSelectStr g h data k).1.1 = batchText k data.length := by
  rw [(makeBatchSelectStr_cons g h data k hne hk).2.1, placeholders_of_le k _ hk hle]
  rfl

theorem batchClause_str (conn : String) (g : Nat → Nat → Nat) (h : Heap) (s : SQL)
    (key : String) (params : List String) :
    (batchClause conn g h s key params).1.str
      = s.str ++ (conn ++ key ++ " in "
          ++ (makeBatchSelectStr g h params (nextIndex s.params)).1.1 ++ " ") := by
  simp only [batchClause, SQL.ConcatSQL, NewSQL, String.append_empty]

theorem batchClause_read (conn : String) (g : Nat → Nat → Nat) (h : Heap) (s : SQL)
    (key : String) (params : List String) (hin : s.params.inHeap h) :
    (batchClause conn g h s key params).2.read (batchClause conn g h s key params).1.params
      = h.read s.params ++ params.map Any.str := by
  unfold batchClause
  rw [ConcatSQL_read, makeBatchSelectStr_frame g h params _ (isInt_nextIndex _) s.params hin]
  simp only [NewSQL]
  rw [makeBatchSelectStr_read g h params _ (isInt_nextIndex _)]

theorem batchClause_len (conn : String) (g : Nat → Nat → Nat) (h : Heap) (s : SQL)
    (key : String) (params : List String) :
    (batchClause conn g h s key params).1.params.len = s.params.len + params.length := by
  simp only [batchClause, SQL.ConcatSQL, NewSQL, Slice.all_eq]
  rw [append_len, Heap.read_length, makeBatchSelectStr_len g h params _ (isInt_nextIndex _)]

theorem batchClause_inHeap (conn : String) (g : Nat → Nat → Nat) (h : Heap) (s : SQL)
    (key : String) (params : List String) (hin : s.params.inHeap h) :
    (batchClause conn g h s key params).1.params.inHeap (batchClause conn g h s key params).2 := by
  simp only [batchClause, SQL.ConcatSQL, NewSQL, Slice.all_eq]
  apply append_inHeap
  have hn := makeBatchSelectStr_next g h params (nextIndex s.params) (isInt_nextIndex _)
  cases hs : s.params with
  | nil => trivial
  | mk a o l c =>
    rw [hs] at hin hn
    simp only [Slice.inHeap] at hin ⊢
    omega

theorem execCommon_db_execs (env : Env) (h : Heap) (p : Nat) (sqlStr : String) (args : Slice)
    (h1 : Source.db p ≠ env.blankDB) (h2 : Source.db p ≠ env.blankDBTx) :
    (execCommon env h (.db p) sqlStr args).2.filter Event.isExec
      = [Event.poolExec p sqlStr (h.read args)] := by
  rw [execCommon_db env h p sqlStr args h1 h2]
  cases he : (env.poolExec p sqlStr (h.read args)).2 with
  | some e => simp [logged_no_exec, Event.isExec]
  | none => simp [logged_no_exec, affectedResult_no_exec, Event.isExec]

theorem AddParams_nil (h : Heap) (text : String) :
    AddParams h text .nil = (⟨text, .mk h.next 0 0 0⟩, { h with next := h.next + 1 }) := by
  rfl

theorem nextIndex_fresh (a : Nat) : nextIndex (.mk a 0 0 0) = 1 := by
  rw [nextIndex_eq _ (by simp [Slice.len, maxInt])]
  simp [Slice.len]

theorem batchText_three : batchText 1 3 = "($1,$2,$3)" := by
  rfl

theorem dollars_intercalate (sep : String) (hsep : dollars sep = 0) (l : List String) :
    ∀ a : String, dollars a = 1 → (∀ x ∈ l, dollars x = 1) →
      dollars (sep.intercalate (a :: l)) = l.length + 1 := by
  induction l with
  | nil =>
    intro a ha _
    show dollars a = 0 + 1
    rw [ha]
  | cons b l ih =>
    intro a ha hl
    rw [intercalate_cons_cons, dollars_append, dollars_append, ha, hsep,
      ih b (hl b (List.mem_cons_self b l)) (fun x hx => hl x (List.mem_cons_of_mem b hx))]
    simp only [List.length_cons]
    omega

theorem dollars_placeholder (x : Int) : dollars ("$" ++ Sprint x) = 1 := by
  rw [dollars_append, dollars_Sprint]
  rfl

theorem dollars_makeBatchSelectStr (g : Nat → Nat → Nat) (h : Heap) (data : List String)
    (k : Int) (hk : isInt k) : dollars (makeBatchSelectStr g h data k).1.1 = data.length := by
  cases data with
  | nil => rw [makeBatchSelectStr_nil]; rfl
  | cons v rest =>
    rw [(makeBatchSelectStr_cons g h (v :: rest) k (by simp) hk).2.1]
    simp only [List.length_cons]
    rw [placeholders_succ k _ hk, dollars_append, dollars_append,
      dollars_intercalate "," rfl _ _ (dollars_placeholder k)]
    · simp only [placeholders_length]
      have e1 : dollars "(" = 0 := rfl
      have e2 : dollars ")" = 0 := rfl
      rw [e1, e2]
      omega
    · intro x hx
      simp only [placeholders, List.mem_map] at hx
      obtain ⟨i, _, rfl⟩ := hx
      exact dollars_placeholder _

theorem dollars_batchClause (conn : String) (hconn : dollars conn = 0) (g : Nat → Nat → Nat)
    (h : Heap) (s : SQL) (key : String) (params : List String) (hkey : dollars key = 0) :
    dollars (batchClause conn g h s key params).1.str = dollars s.str + params.length := by
  have e1 : dollars " in " = 0 := rfl
  have e2 : dollars " " = 0 := rfl
  rw [batchClause_str]
  simp only [dollars_append, hconn, hkey, e1, e2,
    dollars_makeBatchSelectStr g h params _ (isInt_nextIndex _)]
  omega

theorem ConcatSQL_len (g : Nat → Nat → Nat) (h : Heap) (a b : SQL) :
    (a.ConcatSQL g h b).1.params.len = a.params.len + b.params.len := by
  simp only [SQL.ConcatSQL, NewSQL, Slice.all_eq]
  rw [append_len, Heap.read_length]

/-- The empty statement is a unit of `ConcatSQL` on either side, as far as
the text and the parameters shown go. -/
theorem ConcatSQL_unit (g : Nat → Nat → Nat) (h : Heap) (a : SQL) :
    (a.ConcatSQL g h (NewSQL "" .nil)).1.str = a.str
    ∧ (a.ConcatSQL g h (NewSQL "" .nil)).2.read (a.ConcatSQL g h (NewSQL "" .nil)).1.params
        = h.read a.params
    ∧ ((NewSQL "" .nil).ConcatSQL g h a).1.str = a.str
    ∧ ((NewSQL "" .nil).ConcatSQL g h a).2.read ((NewSQL "" .nil).ConcatSQL g h a).1.params
        = h.read a.params := by
  refine ⟨?_, ?_, ?_, ?_⟩
  · simp [SQL.ConcatSQL, NewSQL]
  · rw [ConcatSQL_read]
    simp [NewSQL, Heap.read]
  · simp [SQL.ConcatSQL, NewSQL]
  · rw [ConcatSQL_read]
    simp [NewSQL, Heap.read]

/-- The two ways of bracketing three statements agree on the text, and on
the parameters when the inner call of each leaves the third statement as it
was. -/
theorem ConcatSQL_assoc_of_frame (g : Nat → Nat → Nat) (h : Heap) (a b c : SQL)
    (hc : (a.ConcatSQL g h b).2.read c.params = h.read c.params)
    (ha : (b.ConcatSQL g h c).2.read a.params = h.read a.params) :
    ((a.ConcatSQL g h b).1.ConcatSQL g (a.ConcatSQL g h b).2 c).1.str
        = (a.ConcatSQL g (b.ConcatSQL g h c).2 (b.ConcatSQL g h c).1).1.str
    ∧ ((a.ConcatSQL g h b).1.ConcatSQL g (a.ConcatSQL g h b).2 c).2.read
          ((a.ConcatSQL g h b).1.ConcatSQL g (a.ConcatSQL g h b).2 c).1.params
        = (a.ConcatSQL g (b.ConcatSQL g h c).2 (b.ConcatSQL g h c).1).2.read
          (a.ConcatSQL g (b.ConcatSQL g h c).2 (b.ConcatSQL g h c).1).1.params := by
  constructor
  · simp only [SQL.ConcatSQL, NewSQL, String.append_assoc]
  · rw [ConcatSQL_read, ConcatSQL_read, ConcatSQL_read, ConcatSQL_read, hc, ha,
      List.append_assoc]

/-! ## The claims -/

/-- C1 as stated fails: at the largest `int` as start index and two values
the second placeholder is numbered by the smallest `int`, since `startNo++`
wraps around, not by the sum `k+1`. -/
theorem makeBatchSelectStr_wraps :
    isInt 9223372036854775807
    ∧ (makeBatchSelectStr goGrowCap Heap.empty ["a", "b"] 9223372036854775807).1.1
        = "($9223372036854775807,$-9223372036854775808)"
    ∧ (makeBatchSelectStr goGrowCap Heap.empty ["a", "b"] 9223372036854775807).1.1
        ≠ "(" ++ ",".intercalate
            ((List.range 2).map
              (fun (i : Nat) => "$" ++ Sprint (9223372036854775807 + (i : Int)))) ++ ")" := by
  decide

/-- C1 (amended): for a non-empty list `values` and a start index `k` of type
`int`, `makeBatchSelectStr` returns a parameter list that shows `values`
element for element in the same order, and, when `k+len(values)-1` does not
exceed the largest `int`, the text `(` + `$k,$k+1,...,$k+len(values)-1` +
`)`: exactly `len(values)` placeholders, numbered consecutively from `k` in
decimal, joined by commas with no trailing comma, in one pair of
parentheses. -/
theorem makeBatchSelectStr_spec (g : Nat → Nat → Nat) (h : Heap) (values : List String)
    (k : Int) (hne : values ≠ []) (hk : isInt k) :
    (k + (values.length : Int) - 1 ≤ maxInt →
        (makeBatchSelectStr g h values k).1.1
          = "(" ++ ",".intercalate
              ((List.range values.length).map (fun (i : Nat) => "$" ++ Sprint (k + (i : Int))))
            ++ ")")
    ∧ ((List.range values.length).map
          (fun (i : Nat) => "$" ++ Sprint (k + (i : Int)))).length = values.length
    ∧ (makeBatchSelectStr g h values k).2.read (makeBatchSelectStr g h values k).1.2
        = values.map Any.str := by
  obtain ⟨h1, h2, h3, _, _⟩ := makeBatchSelectStr_cons g h values k hne hk
  refine ⟨?_, by simp, ?_⟩
  · intro hle
    rw [h2, placeholders_of_le k _ hk hle]
  · rw [h1, h3]

/-- Witness of C1 (amended): values `[a,b,c]` at start index 5. -/
theorem makeBatchSelectStr_spec_witness :
    (makeBatchSelectStr goGrowCap Heap.empty ["a", "b", "c"] 5).1.1 = "($5,$6,$7)"
    ∧ (makeBatchSelectStr goGrowCap Heap.empty ["a", "b", "c"] 5).2.read
        (makeBatchSelectStr goGrowCap Heap.empty ["a", "b", "c"] 5).1.2
        = [Any.str "a", Any.str "b", Any.str "c"] := by
  have w := makeBatchSelectStr_spec goGrowCap Heap.empty ["a", "b", "c"] 5 (by decide)
    (by decide)
  exact ⟨by rw [w.1 (by decide)]; decide, w.2.2⟩

/-- C2: `ConcatSQL(a, b)` has the text of `a` followed by the text of `b`, and
shows the parameters of `a` followed by the parameters of `b`, in that order
and nothing else. -/
theorem ConcatSQL_spec (g : Nat → Nat → Nat) (h : Heap) (a b : SQL) :
    (a.ConcatSQL g h b).1.str = a.str ++ b.str
    ∧ (a.ConcatSQL g h b).2.read (a.ConcatSQL g h b).1.params
        = h.read a.params ++ h.read b.params :=
  ⟨rfl, ConcatSQL_read g h a b⟩

/-- C3 (the code differs): `ConcatSQL` hands `s.params[:]` to `append`, which
is the same backing array, not a copy. With a base of one parameter and
capacity 4, `r1 = ConcatSQL(base, b)` shows `x, b` when it is built, and after
`r2 = ConcatSQL(base, c)` the same `r1` shows `x, c`: the second append wrote
into the array `r1` shares with the base. -/
theorem ConcatSQL_branch_overwrites (g : Nat → Nat → Nat) :
    heapBranch.read sqlBase.params = [Any.str "x"]
    ∧ heapBranch.read sqlB.params = [Any.str "b"]
    ∧ (sqlBase.ConcatSQL g heapBranch sqlB).2.read
          (sqlBase.ConcatSQL g heapBranch sqlB).1.params = [Any.str "x", Any.str "b"]
    ∧ (sqlBase.ConcatSQL g (sqlBase.ConcatSQL g heapBranch sqlB).2 sqlC).2.read
          (sqlBase.ConcatSQL g heapBranch sqlB).1.params = [Any.str "x", Any.str "c"] := by
  refine ⟨rfl, rfl, rfl, rfl⟩

/-- The same through builder calls only, with the capacities the runtime
gives: a base built by `AddParams`, `In` (three values) and `AndIn` (one
value) has length 4 and capacity 6, and two `AndIn` branches from it share
its array. -/
theorem AndIn_branch_overwrites :
    let s0 := AddParams Heap.empty "select * from t" .nil
    let s1 := s0.1.In goGrowCap s0.2 "a" ["1", "2", "3"]
    let base := s1.1.AndIn goGrowCap s1.2 "b" ["4"]
    let r1 := base.1.AndIn goGrowCap base.2 "c" ["x"]
    let r2 := base.1.AndIn goGrowCap r1.2 "c" ["y"]
    r1.2.read r1.1.params = [Any.str "1", Any.str "2", Any.str "3", Any.str "4", Any.str "x"]
    ∧ r2.2.read r1.1.params
        = [Any.str "1", Any.str "2", Any.str "3", Any.str "4", Any.str "y"] := by
  decide

/-- C4: `In(s, key, values)` has the text `s.text + " where " + key + " in " +
P + " "`, with `P` the placeholder list of `makeBatchSelectStr(values,
len(s.parameters)+1)`, and shows the parameters of `s` followed by `values`;
when `s` has 2 parameters, `In(s, "id", ["1","2"])` has the text of `s`
followed by ` where id in ($3,$4) ` and the parameters of `s` followed by
`"1"`, `"2"`. -/
theorem In_text_params (g : Nat → Nat → Nat) (h : Heap) (s : SQL) (key : String)
    (values : List String) (hv : s.params.valid h) :
    (s.In g h key values).1.str
        = s.str ++ (" where " ++ key ++ " in "
            ++ (makeBatchSelectStr g h values ((s.params.len : Int) + 1)).1.1 ++ " ")
    ∧ (s.In g h key values).2.read (s.In g h key values).1.params
        = h.read s.params ++ values.map Any.str
    ∧ (s.params.len = 2 →
        (s.In g h "id" ["1", "2"]).1.str = s.str ++ " where id in ($3,$4) "
        ∧ (s.In g h "id" ["1", "2"]).2.read (s.In g h "id" ["1", "2"]).1.params
            = h.read s.params ++ [Any.str "1", Any.str "2"]) := by
  have hidx := startIndex_eq h s.params hv
  have hint := startIndex_isInt h s.params hv
  have htext : ∀ (k : String) (vs : List String), (s.In g h k vs).1.str
      = s.str ++ (" where " ++ k ++ " in "
          ++ (makeBatchSelectStr g h vs ((s.params.len : Int) + 1)).1.1 ++ " ") := by
    intro k vs
    simp only [SQL.In, hidx, SQL.ConcatSQL, NewSQL, String.append_empty]
  have hpar : ∀ (k : String) (vs : List String),
      (s.In g h k vs).2.read (s.In g h k vs).1.params = h.read s.params ++ vs.map Any.str := by
    intro k vs
    have hc := ConcatSQL_read g (makeBatchSelectStr g h vs ((s.params.len : Int) + 1)).2 s
      (NewSQL (" where " ++ k ++ "" ++ " in "
        ++ (makeBatchSelectStr g h vs ((s.params.len : Int) + 1)).1.1 ++ " ")
        (makeBatchSelectStr g h vs ((s.params.len : Int) + 1)).1.2)
    have hr := makeBatchSelectStr_read g h vs _ hint
    have hf := makeBatchSelectStr_frame g h vs _ hint s.params hv.1
    simp only [SQL.In, hidx]
    rw [hc, hf]
    simp only [NewSQL]
    rw [hr]
  refine ⟨htext key values, hpar key values, ?_⟩
  intro h2
  refine ⟨?_, hpar "id" ["1", "2"]⟩
  rw [htext, h2]
  have hb := (makeBatchSelectStr_cons g h ["1", "2"] (((2 : Nat) : Int) + 1) (by simp)
    (by decide)).2.1
  rw [hb]
  show s.str ++ (" where " ++ "id" ++ " in " ++ ("(" ++ ",".intercalate (placeholders 3 2) ++ ")")
    ++ " ") = _
  rw [placeholders_three_two]
  rfl

/-- Witness of C4: a statement with two parameters. -/
theorem In_text_params_witness :
    (sqlXY.In goGrowCap heapXY "id" ["1", "2"]).1.str
        = "select * from t where a=$1 and b=$2 where id in ($3,$4) "
    ∧ (sqlXY.In goGrowCap heapXY "id" ["1", "2"]).2.read
          (sqlXY.In goGrowCap heapXY "id" ["1", "2"]).1.params
        = [Any.str "x", Any.str "y", Any.str "1", Any.str "2"] :=
  (In_text_params goGrowCap heapXY sqlXY "id" ["1", "2"] (by decide)).2.2 rfl

/-- C5: when the leading token of the text, lower-cased and trimmed, is
`update` or `delete`, `affectedResult` returns what `result.RowsAffected()`
returns, value and error, and calls nothing else; when it is `insert` or
`replace` it returns what `result.LastInsertId()` returns. So
`UPDATE t SET x=1` gives the rows-affected count and `insert into t ...` the
last generated identifier. -/
theorem affectedResult_by_verb (lower : Char → Char) (sqlStr : String) (result : Result) :
    ((leadingToken lower sqlStr = "update" ∨ leadingToken lower sqlStr = "delete") →
      affectedResult lower sqlStr result = (result.RowsAffected, [Event.rowsAffected]))
    ∧ ((leadingToken lower sqlStr = "insert" ∨ leadingToken lower sqlStr = "replace") →
      affectedResult lower sqlStr result = (result.LastInsertId, [Event.lastInsertId]))
    ∧ affectedResult asciiToLower "UPDATE t SET x=1" result
        = (result.RowsAffected, [Event.rowsAffected])
    ∧ affectedResult asciiToLower "insert into t ..." result
        = (result.LastInsertId, [Event.lastInsertId]) := by
  refine ⟨?_, ?_, ?_, ?_⟩
  · intro h
    rcases h with h | h
    · have hp := leadingToken_hasPrefix lower sqlStr _ h
      simp [affectedResult, isSQLUpdate, hp]
    · have hp := leadingToken_hasPrefix lower sqlStr _ h
      simp [affectedResult, isSQLDelete, hp]
  · intro h
    rcases h with h | h
    · have hp := leadingToken_hasPrefix lower sqlStr _ h
      have hu := HasPrefix_excl _ "insert" "update" 'i' 'u' _ _ rfl rfl (by decide) hp
      have hd := HasPrefix_excl _ "insert" "delete" 'i' 'd' _ _ rfl rfl (by decide) hp
      simp [affectedResult, isSQLUpdate, isSQLDelete, isSQLInsert, hp, hu, hd]
    · have hp := leadingToken_hasPrefix lower sqlStr _ h
      have hu := HasPrefix_excl _ "replace" "update" 'r' 'u' _ _ rfl rfl (by decide) hp
      have hd := HasPrefix_excl _ "replace" "delete" 'r' 'd' _ _ rfl rfl (by decide) hp
      simp [affectedResult, isSQLUpdate, isSQLDelete, isSQLInsert, isSQLReplace, hp, hu, hd]
  · have hu : isSQLUpdate asciiToLower "UPDATE t SET x=1" = true := by decide
    simp [affectedResult, hu]
  · have hu : isSQLUpdate asciiToLower "insert into t ..." = false := by decide
    have hd : isSQLDelete asciiToLower "insert into t ..." = false := by decide
    have hi : isSQLInsert asciiToLower "insert into t ..." = true := by decide
    simp [affectedResult, hu, hd, hi]

/-- Witness of C5: ` Delete from t` has the leading token `delete`, `REPLACE
into t` has the leading token `replace`. -/
theorem affectedResult_by_verb_witness :
    affectedResult asciiToLower " Delete from t" result317 = ((3, none), [Event.rowsAffected])
    ∧ affectedResult asciiToLower "REPLACE into t" result317
        = ((17, none), [Event.lastInsertId]) :=
  ⟨(affectedResult_by_verb asciiToLower " Delete from t" result317).1 (Or.inr (by decide)),
    (affectedResult_by_verb asciiToLower "REPLACE into t" result317).2.1 (Or.inr (by decide))⟩

/-- C6 as stated fails: the leading token of `inserted` is `inserted`, none of
the four verbs, and `affectedResult` calls `LastInsertId` and returns its
result instead of failing. -/
theorem affectedResult_longer_word :
    leadingToken asciiToLower "inserted" = "inserted"
    ∧ leadingToken asciiToLower "inserted" ∉ verbs
    ∧ affectedResult asciiToLower "inserted" result317 = ((17, none), [Event.lastInsertId]) := by
  decide

/-- C6 (amended): the classification looks at the start of the text only.
When the text, lower-cased and trimmed, begins with none of `update`,
`delete`, `insert`, `replace` (as for `select 1` and for the empty
statement), `affectedResult` fails with the unsupported-statement-kind
error, returns 0 and calls neither `RowsAffected` nor `LastInsertId`. When it
begins with one of them, also as the start of a longer word, it is
classified as that verb: for `update` and `delete` the function returns what
`RowsAffected` returns and calls nothing else, for `insert` and `replace`
what `LastInsertId` returns. -/
theorem affectedResult_unsupported (lower : Char → Char) (sqlStr : String) (result : Result) :
    ((∀ w ∈ verbs, HasPrefix (normalized lower sqlStr) w = false) →
      affectedResult lower sqlStr result
        = ((0, some (Error.New "only support update insert delete replace")), []))
    ∧ ((HasPrefix (normalized lower sqlStr) "update" = true
          ∨ HasPrefix (normalized lower sqlStr) "delete" = true) →
      affectedResult lower sqlStr result = (result.RowsAffected, [Event.rowsAffected]))
    ∧ ((HasPrefix (normalized lower sqlStr) "insert" = true
          ∨ HasPrefix (normalized lower sqlStr) "replace" = true) →
      affectedResult lower sqlStr result = (result.LastInsertId, [Event.lastInsertId]))
    ∧ affectedResult asciiToLower "select 1" result
        = ((0, some (Error.New "only support update insert delete replace")), [])
    ∧ affectedResult asciiToLower "" result
        = ((0, some (Error.New "only support update insert delete replace")), []) := by
  refine ⟨?_, ?_, ?_, ?_, ?_⟩
  · intro h
    have hu := h "update" (by simp [verbs])
    have hd := h "delete" (by simp [verbs])
    have hi := h "insert" (by simp [verbs])
    have hr := h "replace" (by simp [verbs])
    simp only [normalized] at hu hd hi hr
    simp [affectedResult, isSQLUpdate, isSQLDelete, isSQLInsert, isSQLReplace, hu, hd, hi, hr]
  · intro h
    simp only [normalized] at h
    rcases h with hp | hp
    · simp [affectedResult, isSQLUpdate, hp]
    · simp [affectedResult, isSQLDelete, hp]
  · intro h
    simp only [normalized] at h
    rcases h with hp | hp
    · have hu := HasPrefix_excl _ "insert" "update" 'i' 'u' _ _ rfl rfl (by decide) hp
      have hd := HasPrefix_excl _ "insert" "delete" 'i' 'd' _ _ rfl rfl (by decide) hp
      simp [affectedResult, isSQLUpdate, isSQLDelete, isSQLInsert, hp, hu, hd]
    · have hu := HasPrefix_excl _ "replace" "update" 'r' 'u' _ _ rfl rfl (by decide) hp
      have hd := HasPrefix_excl _ "replace" "delete" 'r' 'd' _ _ rfl rfl (by decide) hp
      simp [affectedResult, isSQLUpdate, isSQLDelete, isSQLInsert, isSQLReplace, hp, hu, hd]
  · have hu : isSQLUpdate asciiToLower "select 1" = false := by decide
    have hd : isSQLDelete asciiToLower "select 1" = false := by decide
    have hi : isSQLInsert asciiToLower "select 1" = false := by decide
    have hr : isSQLReplace asciiToLower "select 1" = false := by decide
    simp [affectedResult, hu, hd, hi, hr]
  · have hu : isSQLUpdate asciiToLower "" = false := by decide
    have hd : isSQLDelete asciiToLower "" = false := by decide
    have hi : isSQLInsert asciiToLower "" = false := by decide
    have hr : isSQLReplace asciiToLower "" = false := by decide
    simp [affectedResult, hu, hd, hi, hr]

/-- Witness of C6 (amended): `with x as ...` begins with none of the verbs,
`updates t` begins with `update`, `Replaced` begins with `replace`. -/
theorem affectedResult_unsupported_witness :
    affectedResult asciiToLower "with x as (select 1) select 2" result317
        = ((0, some (Error.New "only support update insert delete replace")), [])
    ∧ affectedResult asciiToLower "updates t" result317 = ((3, none), [Event.rowsAffected])
    ∧ affectedResult asciiToLower " Replaced" result317 = ((17, none), [Event.lastInsertId]) :=
  ⟨(affectedResult_unsupported asciiToLower "with x as (select 1) select 2" result317).1
      (by decide),
    (affectedResult_unsupported asciiToLower "updates t" result317).2.1 (Or.inl (by decide)),
    (affectedResult_unsupported asciiToLower " Replaced" result317).2.2.1
      (Or.inr (by decide))⟩

/-- C7: called with the blank pool sentinel or the blank transaction sentinel
as target, `execCommon` fails with the uninitialized-target error and result
0 and makes no call at all (no exec primitive is invoked), whatever the text
and the parameters. -/
theorem execCommon_blank (env : Env) (h : Heap) (source : Source) (sqlStr : String)
    (args : Slice) (hb : source = env.blankDB ∨ source = env.blankDBTx) :
    execCommon env h source sqlStr args
      = ((0, some (Error.New "exec 无法进行 ， 请先初始化数据库")), []) := by
  simp [execCommon, hb]

/-- Witness of C7: the blank pool sentinel with `select 1`. -/
theorem execCommon_blank_witness :
    execCommon envDemo Heap.empty (.db 0) "select 1" .nil
      = ((0, some (Error.New "exec 无法进行 ， 请先初始化数据库")), []) :=
  execCommon_blank envDemo Heap.empty (.db 0) "select 1" .nil (Or.inl rfl)

/-- C8: for a pool or a transaction that is not a blank sentinel,
`execCommon(target, text, params)` calls the exec primitive of that target
exactly once, with `text` and with the parameters in their order; when that
call succeeds with result `r`, what `execCommon` returns is what
`affectedResult(text, r)` returns. `SQL.Exec(source)` is
`execCommon(source, s.str, s.params)`. -/
theorem execCommon_delegates (env : Env) (h : Heap) (sqlStr : String) (args : Slice) :
    (∀ p, Source.db p ≠ env.blankDB → Source.db p ≠ env.blankDBTx →
      (execCommon env h (.db p) sqlStr args).2.filter Event.isExec
          = [Event.poolExec p sqlStr (h.read args)]
      ∧ ((env.poolExec p sqlStr (h.read args)).2 = none →
          (execCommon env h (.db p) sqlStr args).1
            = (affectedResult env.toLowerRune sqlStr
                (env.poolExec p sqlStr (h.read args)).1).1))
    ∧ (∀ t, Source.dbtx t ≠ env.blankDB → Source.dbtx t ≠ env.blankDBTx →
      (execCommon env h (.dbtx t) sqlStr args).2.filter Event.isExec
          = [Event.txExec t sqlStr (h.read args)]
      ∧ ((env.txExec t sqlStr (h.read args)).2 = none →
          (execCommon env h (.dbtx t) sqlStr args).1
            = (affectedResult env.toLowerRune sqlStr
                (env.txExec t sqlStr (h.read args)).1).1))
    ∧ (∀ (s : SQL) (source : Source),
        s.Exec env h source = execCommon env h source s.str s.params) := by
  refine ⟨?_, ?_, ?_⟩
  · intro p h1 h2
    rw [execCommon_db env h p sqlStr args h1 h2]
    cases he : (env.poolExec p sqlStr (h.read args)).2 with
    | some e => simp [logged_no_exec, Event.isExec]
    | none => simp [logged_no_exec, affectedResult_no_exec, Event.isExec]
  · intro t h1 h2
    rw [execCommon_dbtx env h t sqlStr args h1 h2]
    cases he : (env.txExec t sqlStr (h.read args)).2 with
    | some e => simp [logged_no_exec, Event.isExec]
    | none => simp [logged_no_exec, affectedResult_no_exec, Event.isExec]
  · intro s source
    rfl

/-- Witness of C8: pool 1 and transaction 2 with an `update` and the two
parameters of `heapXY`. -/
theorem execCommon_delegates_witness :
    ((execCommon envDemo heapXY (.db 1) "update t set a=$1 where b=$2" (.mk 0 0 2 2)).2.filter
          Event.isExec
        = [Event.poolExec 1 "update t set a=$1 where b=$2" [Any.str "x", Any.str "y"]]
      ∧ (execCommon envDemo heapXY (.db 1) "update t set a=$1 where b=$2" (.mk 0 0 2 2)).1
        = (3, none))
    ∧ ((execCommon envDemo heapXY (.dbtx 2) "update t set a=$1 where b=$2"
          (.mk 0 0 2 2)).2.filter Event.isExec
        = [Event.txExec 2 "update t set a=$1 where b=$2" [Any.str "x", Any.str "y"]]
      ∧ (execCommon envDemo heapXY (.dbtx 2) "update t set a=$1 where b=$2" (.mk 0 0 2 2)).1
        = (3, none)) := by
  have w := execCommon_delegates envDemo heapXY "update t set a=$1 where b=$2" (.mk 0 0 2 2)
  have w1 := w.1 1 (by decide) (by decide)
  have w2 := w.2.1 2 (by decide) (by decide)
  exact ⟨⟨w1.1, (w1.2 rfl).trans (by decide)⟩, ⟨w2.1, (w2.2 rfl).trans (by decide)⟩⟩

/-- C9: when the exec primitive of the target fails with error `e`,
`execCommon` returns `(0, e)` with `e` as it is, the primitive has been
called once and no method of a driver result is called, whatever the verb of
the statement. -/
theorem execCommon_driver_error (env : Env) (h : Heap) (sqlStr : String) (args : Slice)
    (e : Error) :
    (∀ p, Source.db p ≠ env.blankDB → Source.db p ≠ env.blankDBTx →
      (env.poolExec p sqlStr (h.read args)).2 = some e →
      (execCommon env h (.db p) sqlStr args).1 = (0, some e)
      ∧ (execCommon env h (.db p) sqlStr args).2.filter Event.isExec
          = [Event.poolExec p sqlStr (h.read args)]
      ∧ (execCommon env h (.db p) sqlStr args).2.filter Event.isConsult = [])
    ∧ (∀ t, Source.dbtx t ≠ env.blankDB → Source.dbtx t ≠ env.blankDBTx →
      (env.txExec t sqlStr (h.read args)).2 = some e →
      (execCommon env h (.dbtx t) sqlStr args).1 = (0, some e)
      ∧ (execCommon env h (.dbtx t) sqlStr args).2.filter Event.isExec
          = [Event.txExec t sqlStr (h.read args)]
      ∧ (execCommon env h (.dbtx t) sqlStr args).2.filter Event.isConsult = []) := by
  refine ⟨?_, ?_⟩
  · intro p h1 h2 he
    rw [execCommon_db env h p sqlStr args h1 h2, he]
    simp [logged_no_exec, logged_no_consult, Event.isExec, Event.isConsult]
  · intro t h1 h2 he
    rw [execCommon_dbtx env h t sqlStr args h1 h2, he]
    simp [logged_no_exec, logged_no_consult, Event.isExec, Event.isConsult]

/-- Witness of C9: the text `boom`, which has no supported verb, on pool 1 and
on transaction 2. -/
theorem execCommon_driver_error_witness :
    ((execCommon envDemo Heap.empty (.db 1) "boom" .nil).1 = (0, some (Error.driver 7))
      ∧ (execCommon envDemo Heap.empty (.db 1) "boom" .nil).2.filter Event.isConsult = [])
    ∧ ((execCommon envDemo Heap.empty (.dbtx 2) "boom" .nil).1 = (0, some (Error.driver 7))
      ∧ (execCommon envDemo Heap.empty (.dbtx 2) "boom" .nil).2.filter Event.isConsult = []) :=
  ⟨⟨((execCommon_driver_error envDemo Heap.empty "boom" .nil (Error.driver 7)).1 1
        (by decide) (by decide) rfl).1,
      ((execCommon_driver_error envDemo Heap.empty "boom" .nil (Error.driver 7)).1 1
        (by decide) (by decide) rfl).2.2⟩,
    ⟨((execCommon_driver_error envDemo Heap.empty "boom" .nil (Error.driver 7)).2 2
        (by decide) (by decide) rfl).1,
      ((execCommon_driver_error envDemo Heap.empty "boom" .nil (Error.driver 7)).2 2
        (by decide) (by decide) rfl).2.2⟩⟩

/-- C10: for a target that is neither a pool nor a transaction, and not a
blank sentinel, `execCommon` fails with the unsupported-target error and
result 0, whatever the text and the parameters, and calls neither an exec
primitive nor a method of a driver result. -/
theorem execCommon_unsupported_target (env : Env) (h : Heap) (tag : Nat) (sqlStr : String)
    (args : Slice) (h1 : Source.other tag ≠ env.blankDB)
    (h2 : Source.other tag ≠ env.blankDBTx) :
    (execCommon env h (.other tag) sqlStr args).1
        = (0, some (Error.New "only support DbPool , DbTx"))
    ∧ (execCommon env h (.other tag) sqlStr args).2.filter Event.isExec = []
    ∧ (execCommon env h (.other tag) sqlStr args).2.filter Event.isConsult = [] := by
  have hl := logged_no_exec env h sqlStr args
  have hc := logged_no_consult env h sqlStr args
  simp only [logged] at hl hc
  simp only [execCommon, h1, h2, or_self, if_false]
  exact ⟨trivial, hl, hc⟩

/-- Witness of C10: a target of another dynamic type with an `update`. -/
theorem execCommon_unsupported_target_witness :
    (execCommon envDemo Heap.empty (.other 5) "update t set a=1" .nil).1
        = (0, some (Error.New "only support DbPool , DbTx"))
    ∧ (execCommon envDemo Heap.empty (.other 5) "update t set a=1" .nil).2.filter Event.isExec
        = [] :=
  ⟨(execCommon_unsupported_target envDemo Heap.empty 5 "update t set a=1" .nil (by decide)
      (by decide)).1,
    (execCommon_unsupported_target envDemo Heap.empty 5 "update t set a=1" .nil (by decide)
      (by decide)).2.1⟩

/-- C11: for a non-empty `values` of length `m`, the chain
`SQLStr(text).AddParams().In(key, values).Limit(n)` has the text `text +
" where " + key + " in ($1,...,$m)" + "  limit " + decimal(n)`, with two
spaces before `limit`, and shows the parameters `values`; `Exec` on a pool
hands exactly this text and these parameters to the exec primitive of the
pool. For `select * from users`, `id`, `["1","2","3"]` and 10 the text is
`select * from users where id in ($1,$2,$3)  limit 10`. -/
theorem chain_In_Limit (g : Nat → Nat → Nat) (h : Heap) (text key : String)
    (values : List String) (n : Int) (hne : values ≠ [])
    (hlen : (values.length : Int) ≤ maxInt) :
    (((AddParams h text .nil).1.In g (AddParams h text .nil).2 key values).1.Limit n).str
        = text ++ " where " ++ key ++ " in " ++ batchText 1 values.length ++ "  limit "
            ++ Sprint n
    ∧ ((AddParams h text .nil).1.In g (AddParams h text .nil).2 key values).2.read
          (((AddParams h text .nil).1.In g (AddParams h text .nil).2 key values).1.Limit n).params
        = values.map Any.str
    ∧ (∀ (env : Env) (p : Nat), Source.db p ≠ env.blankDB → Source.db p ≠ env.blankDBTx →
        ((((AddParams h text .nil).1.In g (AddParams h text .nil).2 key values).1.Limit n).Exec
            env ((AddParams h text .nil).1.In g (AddParams h text .nil).2 key values).2
            (.db p)).2.filter Event.isExec
          = [Event.poolExec p
              (text ++ " where " ++ key ++ " in " ++ batchText 1 values.length ++ "  limit "
                ++ Sprint n)
              (values.map Any.str)])
    ∧ "select * from users" ++ " where " ++ "id" ++ " in " ++ batchText 1 3 ++ "  limit "
          ++ Sprint 10
        = "select * from users where id in ($1,$2,$3)  limit 10" := by
  have hsp : ∀ S : String, " " ++ (" limit " ++ S) = "  limit " ++ S := by
    intro S
    rw [← String.append_assoc]
    rfl
  have hbt : (makeBatchSelectStr g { h with next := h.next + 1 } values 1).1.1
      = batchText 1 values.length := by
    apply makeBatchSelectStr_batchText g _ values 1 hne (by decide)
    omega
  have hstr : (((AddParams h text .nil).1.In g (AddParams h text .nil).2 key values).1.Limit
      n).str = text ++ " where " ++ key ++ " in " ++ batchText 1 values.length ++ "  limit "
        ++ Sprint n := by
    rw [In_eq_batchClause, AddParams_nil]
    simp only [SQL.Limit, SQL.clone, NewSQL]
    rw [batchClause_str, nextIndex_fresh, hbt]
    simp only [String.append_assoc, hsp]
  have hpar : ((AddParams h text .nil).1.In g (AddParams h text .nil).2 key values).2.read
      (((AddParams h text .nil).1.In g (AddParams h text .nil).2 key values).1.Limit n).params
        = values.map Any.str := by
    simp only [SQL.Limit, SQL.clone, NewSQL, Slice.all_eq]
    rw [In_eq_batchClause, AddParams_nil, batchClause_read]
    · simp [Heap.read]
    · simp [Slice.inHeap]
  refine ⟨hstr, hpar, ?_, ?_⟩
  · intro env p h1 h2
    simp only [SQL.Exec]
    rw [execCommon_db_execs env _ p _ _ h1 h2, hstr, hpar]
  · rw [batchText_three]
    decide

/-- Witness of C11: the chain of the example, executed on pool 1. -/
theorem chain_In_Limit_witness :
    (((AddParams Heap.empty "select * from users" .nil).1.In goGrowCap
        (AddParams Heap.empty "select * from users" .nil).2 "id" ["1", "2", "3"]).1.Limit 10).str
      = "select * from users where id in ($1,$2,$3)  limit 10"
    ∧ ((((AddParams Heap.empty "select * from users" .nil).1.In goGrowCap
          (AddParams Heap.empty "select * from users" .nil).2 "id" ["1", "2", "3"]).1.Limit
            10).Exec envDemo
          ((AddParams Heap.empty "select * from users" .nil).1.In goGrowCap
            (AddParams Heap.empty "select * from users" .nil).2 "id" ["1", "2", "3"]).2
          (.db 1)).2.filter Event.isExec
      = [Event.poolExec 1 "select * from users where id in ($1,$2,$3)  limit 10"
          [Any.str "1", Any.str "2", Any.str "3"]] := by
  have w := chain_In_Limit goGrowCap Heap.empty "select * from users" "id" ["1", "2", "3"] 10
    (by decide) (by decide)
  refine ⟨w.1.trans w.2.2.2, ?_⟩
  rw [w.2.2.1 envDemo 1 (by decide) (by decide)]
  rfl

/-- C12: `AndIn(s, key, values)` is `In(s, key, values)` with the connective
` and ` for ` where `: for every `values`, empty or not, the two return the
same parameter slice and leave the same heap, both show the parameters of
`s` followed by `values`, and with `P` the placeholder list numbered from
`len(s.parameters)+1` the text of `AndIn` is `s.text + " and " + key + " in "
+ P + " "` where the text of `In` is `s.text + " where " + key + " in " + P +
" "`. -/
theorem AndIn_like_In (g : Nat → Nat → Nat) (h : Heap) (s : SQL) (key : String)
    (values : List String) (hv : s.params.valid h) :
    (s.AndIn g h key values).1.params = (s.In g h key values).1.params
    ∧ (s.AndIn g h key values).2 = (s.In g h key values).2
    ∧ (s.AndIn g h key values).2.read (s.AndIn g h key values).1.params
        = h.read s.params ++ values.map Any.str
    ∧ (s.AndIn g h key values).1.str
        = s.str ++ (" and " ++ key ++ " in "
            ++ (makeBatchSelectStr g h values ((s.params.len : Int) + 1)).1.1 ++ " ")
    ∧ (s.In g h key values).1.str
        = s.str ++ (" where " ++ key ++ " in "
            ++ (makeBatchSelectStr g h values ((s.params.len : Int) + 1)).1.1 ++ " ") := by
  have hidx : nextIndex s.params = (s.params.len : Int) + 1 := by
    apply nextIndex_eq
    have := hv.2.1
    have := hv.2.2
    omega
  refine ⟨rfl, rfl, ?_, ?_, ?_⟩
  · rw [AndIn_eq_batchClause]
    exact batchClause_read " and " g h s key values hv.1
  · rw [AndIn_eq_batchClause, batchClause_str, hidx]
  · rw [In_eq_batchClause, batchClause_str, hidx]

/-- Witness of C12: the statement with two parameters and the values `1`,
`2`. -/
theorem AndIn_like_In_witness :
    (sqlXY.AndIn goGrowCap heapXY "id" ["1", "2"]).1.str
        = "select * from t where a=$1 and b=$2 and id in ($3,$4) "
    ∧ (sqlXY.AndIn goGrowCap heapXY "id" ["1", "2"]).2.read
          (sqlXY.AndIn goGrowCap heapXY "id" ["1", "2"]).1.params
        = [Any.str "x", Any.str "y", Any.str "1", Any.str "2"] :=
  ⟨((AndIn_like_In goGrowCap heapXY sqlXY "id" ["1", "2"] (by decide)).2.2.2.1).trans
      (by decide),
    (AndIn_like_In goGrowCap heapXY sqlXY "id" ["1", "2"] (by decide)).2.2.1⟩

/-- C13: `Limit(s, n)` has the text `s.text + " limit " + decimal(n)`,
`Offset(s, n)` the text `s.text + " offset " + decimal(n)`, `OrderBy(s, expr)`
the text `s.text + " order by " + expr` with `expr` as it is; each returns
the parameter slice of `s`, so it shows the parameters of `s` in every heap,
and none of them writes to the heap or to `s`. -/
theorem Limit_Offset_OrderBy (s : SQL) (n : Int) (expr : String) :
    (s.Limit n).str = s.str ++ " limit " ++ Sprint n
    ∧ (s.Offset n).str = s.str ++ " offset " ++ Sprint n
    ∧ (s.OrderBy expr).str = s.str ++ " order by " ++ expr
    ∧ (s.Limit n).params = s.params
    ∧ (s.Offset n).params = s.params
    ∧ (s.OrderBy expr).params = s.params
    ∧ (∀ h : Heap, h.read (s.Limit n).params = h.read s.params
        ∧ h.read (s.Offset n).params = h.read s.params
        ∧ h.read (s.OrderBy expr).params = h.read s.params) := by
  have e1 : (s.Limit n).params = s.params := Slice.all_eq _
  have e2 : (s.Offset n).params = s.params := Slice.all_eq _
  have e3 : (s.OrderBy expr).params = s.params := Slice.all_eq _
  refine ⟨?_, ?_, ?_, e1, e2, e3, ?_⟩
  · simp only [SQL.Limit, SQL.clone, NewSQL, String.append_assoc]
  · simp only [SQL.Offset, SQL.clone, NewSQL, String.append_assoc]
  · simp only [SQL.OrderBy, SQL.clone, NewSQL, String.append_assoc]
  · intro h
    rw [e1, e2, e3]
    exact ⟨rfl, rfl, rfl⟩

/-- C14: on the empty list `makeBatchSelectStr` returns the empty string, not
`()`, and the `nil` parameter slice, which shows no parameter, and leaves the
heap as it is, for every start index. -/
theorem makeBatchSelectStr_empty (g : Nat → Nat → Nat) (h : Heap) (k : Int) :
    (makeBatchSelectStr g h [] k).1.1 = ""
    ∧ (makeBatchSelectStr g h [] k).1.1 ≠ "()"
    ∧ (makeBatchSelectStr g h [] k).1.2 = Slice.nil
    ∧ (makeBatchSelectStr g h [] k).2.read (makeBatchSelectStr g h [] k).1.2 = []
    ∧ (makeBatchSelectStr g h [] k).2 = h := by
  rw [makeBatchSelectStr_nil]
  have hne : ("" : String) ≠ "()" := by decide
  exact ⟨rfl, hne, rfl, rfl, rfl⟩

/-- C15: with an empty value list `In` and `AndIn` still append the clause:
the text is `s.text + " where " + key + " in  "`, respectively `s.text +
" and " + key + " in  "` (`in `, the empty placeholder list, one more
space), and the parameters shown are those of `s`, nothing added. -/
theorem In_AndIn_empty (g : Nat → Nat → Nat) (h : Heap) (s : SQL) (key : String) :
    (s.In g h key []).1.str = s.str ++ " where " ++ key ++ " in  "
    ∧ (s.AndIn g h key []).1.str = s.str ++ " and " ++ key ++ " in  "
    ∧ (s.In g h key []).2.read (s.In g h key []).1.params = h.read s.params
    ∧ (s.AndIn g h key []).2.read (s.AndIn g h key []).1.params = h.read s.params := by
  have hsp : " in " ++ " " = " in  " := rfl
  have hstr : ∀ conn : String, (batchClause conn g h s key []).1.str
      = s.str ++ conn ++ key ++ " in  " := by
    intro conn
    rw [batchClause_str, makeBatchSelectStr_nil]
    simp only [String.append_empty, String.append_assoc, hsp]
  have hread : ∀ conn : String,
      (batchClause conn g h s key []).2.read (batchClause conn g h s key []).1.params
        = h.read s.params := by
    intro conn
    unfold batchClause
    rw [ConcatSQL_read, makeBatchSelectStr_nil]
    simp [NewSQL, Heap.read]
  exact ⟨hstr " where ", hstr " and ", hread " where ", hread " and "⟩

/-- C16: a statement whose parameter list is `nil` is treated like one with
an empty list: `In` and `AndIn` applied to `NewSQL(text, nil)` and to
`SQLStr(text).AddParams()` give the same text, with the placeholders numbered
from 1, and show the same parameters, which are `values`. -/
theorem nil_like_empty (g : Nat → Nat → Nat) (h : Heap) (text key : String)
    (values : List String) :
    ((NewSQL text .nil).In g h key values).1.str
        = ((AddParams h text .nil).1.In g (AddParams h text .nil).2 key values).1.str
    ∧ ((NewSQL text .nil).AndIn g h key values).1.str
        = ((AddParams h text .nil).1.AndIn g (AddParams h text .nil).2 key values).1.str
    ∧ ((NewSQL text .nil).In g h key values).1.str
        = text ++ (" where " ++ key ++ " in " ++ (makeBatchSelectStr g h values 1).1.1 ++ " ")
    ∧ ((NewSQL text .nil).AndIn g h key values).1.str
        = text ++ (" and " ++ key ++ " in " ++ (makeBatchSelectStr g h values 1).1.1 ++ " ")
    ∧ ((NewSQL text .nil).In g h key values).2.read
          ((NewSQL text .nil).In g h key values).1.params = values.map Any.str
    ∧ ((AddParams h text .nil).1.In g (AddParams h text .nil).2 key values).2.read
          ((AddParams h text .nil).1.In g (AddParams h text .nil).2 key values).1.params
        = values.map Any.str
    ∧ ((NewSQL text .nil).AndIn g h key values).2.read
          ((NewSQL text .nil).AndIn g h key values).1.params = values.map Any.str
    ∧ ((AddParams h text .nil).1.AndIn g (AddParams h text .nil).2 key values).2.read
          ((AddParams h text .nil).1.AndIn g (AddParams h text .nil).2 key values).1.params
        = values.map Any.str := by
  have hnil : ∀ conn : String, (batchClause conn g h (NewSQL text .nil) key values).1.str
      = text ++ (conn ++ key ++ " in " ++ (makeBatchSelectStr g h values 1).1.1 ++ " ") := by
    intro conn
    rw [batchClause_str]
    rfl
  have hemp : ∀ conn : String,
      (batchClause conn g { h with next := h.next + 1 } ⟨text, .mk h.next 0 0 0⟩ key values).1.str
      = text ++ (conn ++ key ++ " in " ++ (makeBatchSelectStr g h values 1).1.1 ++ " ") := by
    intro conn
    rw [batchClause_str, nextIndex_fresh,
      makeBatchSelectStr_text_congr g g { h with next := h.next + 1 } h values values 1
        (by decide) rfl]
  have rnil : ∀ conn : String,
      (batchClause conn g h (NewSQL text .nil) key values).2.read
        (batchClause conn g h (NewSQL text .nil) key values).1.params = values.map Any.str := by
    intro conn
    rw [batchClause_read conn g h (NewSQL text .nil) key values trivial]
    simp [NewSQL, Heap.read]
  have remp : ∀ conn : String,
      (batchClause conn g { h with next := h.next + 1 } ⟨text, .mk h.next 0 0 0⟩ key values).2.read
        (batchClause conn g { h with next := h.next + 1 } ⟨text, .mk h.next 0 0 0⟩ key
          values).1.params = values.map Any.str := by
    intro conn
    rw [batchClause_read conn g _ _ key values (by simp [Slice.inHeap])]
    simp [Heap.read]
  simp only [In_eq_batchClause, AndIn_eq_batchClause, AddParams_nil]
  exact ⟨(hnil _).trans (hemp _).symm, (hnil _).trans (hemp _).symm, hnil _, hnil _,
    rnil _, remp _, rnil _, remp _⟩

/-- C17: chained batch clauses number their placeholders contiguously. For a
statement `s` with `m` parameters and non-empty `v1`, `v2`,
`s.In(k1, v1).AndIn(k2, v2)` has the placeholders `$m+1 .. $m+len(v1)` in the
first clause and `$m+len(v1)+1 .. $m+len(v1)+len(v2)` in the second, shows
the parameters of `s` followed by `v1` and `v2`, and the parameter at the
1-based position `m+i` is the `i`-th element of `v1` followed by `v2`. -/
theorem chained_numbering (g : Nat → Nat → Nat) (h : Heap) (s : SQL) (k1 k2 : String)
    (v1 v2 : List String) (r1 r2 : SQL × Heap) (hv : s.params.valid h) (hne1 : v1 ≠ [])
    (hne2 : v2 ≠ [])
    (hsz : (s.params.len : Int) + (v1.length : Int) + (v2.length : Int) ≤ maxInt)
    (hr1 : r1 = s.In g h k1 v1) (hr2 : r2 = r1.1.AndIn g r1.2 k2 v2) :
    r2.1.str
        = s.str
          ++ (" where " ++ k1 ++ " in " ++ batchText ((s.params.len : Int) + 1) v1.length ++ " ")
          ++ (" and " ++ k2 ++ " in "
              ++ batchText ((s.params.len : Int) + (v1.length : Int) + 1) v2.length ++ " ")
    ∧ r2.2.read r2.1.params = h.read s.params ++ (v1 ++ v2).map Any.str
    ∧ (∀ i : Nat, 1 ≤ i → i ≤ v1.length + v2.length →
        (r2.2.read r2.1.params)[s.params.len + i - 1]? = ((v1 ++ v2).map Any.str)[i - 1]?) := by
  subst hr2
  subst hr1
  have hmax : maxInt = 9223372036854775807 := rfl
  have hpos1 : 0 < v1.length := List.length_pos.mpr hne1
  have hpos2 : 0 < v2.length := List.length_pos.mpr hne2
  have hl0 : (s.params.len : Int) < maxInt := by omega
  have hlen1 : (s.In g h k1 v1).1.params.len = s.params.len + v1.length := by
    rw [In_eq_batchClause, batchClause_len]
  have hin1 : (s.In g h k1 v1).1.params.inHeap (s.In g h k1 v1).2 := by
    rw [In_eq_batchClause]
    exact batchClause_inHeap _ g h s k1 v1 hv.1
  have hread1 : (s.In g h k1 v1).2.read (s.In g h k1 v1).1.params
      = h.read s.params ++ v1.map Any.str := by
    rw [In_eq_batchClause]
    exact batchClause_read _ g h s k1 v1 hv.1
  have hidx1 : nextIndex s.params = (s.params.len : Int) + 1 := nextIndex_eq _ hl0
  have hidx2 : nextIndex (s.In g h k1 v1).1.params
      = (s.params.len : Int) + (v1.length : Int) + 1 := by
    rw [nextIndex_eq, hlen1]
    · push_cast
      rfl
    · rw [hlen1]
      push_cast
      omega
  have hstr1 : (s.In g h k1 v1).1.str
      = s.str ++ (" where " ++ k1 ++ " in "
          ++ batchText ((s.params.len : Int) + 1) v1.length ++ " ") := by
    rw [In_eq_batchClause, batchClause_str, hidx1, makeBatchSelectStr_batchText g h v1 _ hne1]
    · unfold isInt minInt
      constructor <;> omega
    · omega
  have hread2 : ((s.In g h k1 v1).1.AndIn g (s.In g h k1 v1).2 k2 v2).2.read
      ((s.In g h k1 v1).1.AndIn g (s.In g h k1 v1).2 k2 v2).1.params
      = h.read s.params ++ (v1 ++ v2).map Any.str := by
    rw [AndIn_eq_batchClause, batchClause_read _ g _ _ k2 v2 hin1, hread1]
    simp
  refine ⟨?_, hread2, ?_⟩
  · rw [AndIn_eq_batchClause, batchClause_str, hidx2, hstr1,
      makeBatchSelectStr_batchText g _ v2 _ hne2]
    · unfold isInt minInt
      constructor <;> omega
    · omega
  · intro i hi1 hi2
    rw [hread2, List.getElem?_append_right (by rw [Heap.read_length]; omega), Heap.read_length]
    congr 1
    omega

/-- Witness of C17: the statement with two parameters, then `In` with `1`,
`2` and `AndIn` with `3`. -/
theorem chained_numbering_witness :
    ((sqlXY.In goGrowCap heapXY "id" ["1", "2"]).1.AndIn goGrowCap
        (sqlXY.In goGrowCap heapXY "id" ["1", "2"]).2 "k" ["3"]).1.str
      = "select * from t where a=$1 and b=$2 where id in ($3,$4)  and k in ($5) "
    ∧ ((sqlXY.In goGrowCap heapXY "id" ["1", "2"]).1.AndIn goGrowCap
          (sqlXY.In goGrowCap heapXY "id" ["1", "2"]).2 "k" ["3"]).2.read
        ((sqlXY.In goGrowCap heapXY "id" ["1", "2"]).1.AndIn goGrowCap
          (sqlXY.In goGrowCap heapXY "id" ["1", "2"]).2 "k" ["3"]).1.params
      = [Any.str "x", Any.str "y", Any.str "1", Any.str "2", Any.str "3"] := by
  have w := chained_numbering goGrowCap heapXY sqlXY "id" "k" ["1", "2"] ["3"] _ _
    (by decide) (by decide) (by decide) (by decide) rfl rfl
  exact ⟨w.1.trans (by decide), w.2.1⟩

/-- C18: the builder keeps the number of `$` characters of the text equal to
the number of parameters: when it is so for `s`, it is so for `In` and
`AndIn` with a `$`-free key and any values, for `Limit` and `Offset` with any
`n`, for `OrderBy` with a `$`-free expression, and for `ConcatSQL(a, b)` when
it is so for `a` and for `b`. -/
theorem balance_preserved (g : Nat → Nat → Nat) (h : Heap) (s : SQL) (key expr : String)
    (values : List String) (n : Int) (hbal : dollars s.str = s.params.len)
    (hkey : dollars key = 0) (hexpr : dollars expr = 0) :
    dollars (s.In g h key values).1.str = (s.In g h key values).1.params.len
    ∧ dollars (s.AndIn g h key values).1.str = (s.AndIn g h key values).1.params.len
    ∧ dollars (s.Limit n).str = (s.Limit n).params.len
    ∧ dollars (s.Offset n).str = (s.Offset n).params.len
    ∧ dollars (s.OrderBy expr).str = (s.OrderBy expr).params.len
    ∧ (∀ a b : SQL, dollars a.str = a.params.len → dollars b.str = b.params.len →
        dollars (a.ConcatSQL g h b).1.str = (a.ConcatSQL g h b).1.params.len) := by
  have e1 : dollars " limit " = 0 := rfl
  have e2 : dollars " offset " = 0 := rfl
  have e3 : dollars " order by " = 0 := rfl
  refine ⟨?_, ?_, ?_, ?_, ?_, ?_⟩
  · rw [In_eq_batchClause, dollars_batchClause " where " rfl g h s key values hkey, batchClause_len,
      hbal]
  · rw [AndIn_eq_batchClause, dollars_batchClause " and " rfl g h s key values hkey,
      batchClause_len, hbal]
  · simp only [SQL.Limit, SQL.clone, NewSQL, Slice.all_eq, dollars_append, dollars_Sprint, e1,
      hbal, Nat.add_zero]
  · simp only [SQL.Offset, SQL.clone, NewSQL, Slice.all_eq, dollars_append, dollars_Sprint, e2,
      hbal, Nat.add_zero]
  · simp only [SQL.OrderBy, SQL.clone, NewSQL, Slice.all_eq, dollars_append, hexpr, e3, hbal,
      Nat.add_zero]
  · intro a b ha hb
    rw [ConcatSQL_len, ← ha, ← hb]
    exact dollars_append a.str b.str

/-- Witness of C18: the statement with two placeholders and two
parameters. -/
theorem balance_preserved_witness :
    dollars (sqlXY.In goGrowCap heapXY "id" ["1", "2"]).1.str = 4
    ∧ (sqlXY.In goGrowCap heapXY "id" ["1", "2"]).1.params.len = 4
    ∧ dollars (sqlXY.Limit 10).str = (sqlXY.Limit 10).params.len := by
  have w := balance_preserved goGrowCap heapXY sqlXY "id" "id desc" ["1", "2"] 10
    (by decide) (by decide) (by decide)
  exact ⟨w.1.trans (by decide), by decide, w.2.2.1⟩

/-- C19: the values of a batch clause do not reach the text: for two value
lists of the same length `In` gives the same text, and so does `AndIn`. -/
theorem text_ignores_values (g : Nat → Nat → Nat) (h : Heap) (s : SQL) (key : String)
    (v w : List String) (hl : v.length = w.length) :
    (s.In g h key v).1.str = (s.In g h key w).1.str
    ∧ (s.AndIn g h key v).1.str = (s.AndIn g h key w).1.str := by
  have ht := makeBatchSelectStr_text_congr g g h h v w (nextIndex s.params)
    (isInt_nextIndex _) hl
  constructor
  · rw [In_eq_batchClause, In_eq_batchClause, batchClause_str, batchClause_str, ht]
  · rw [AndIn_eq_batchClause, AndIn_eq_batchClause, batchClause_str, batchClause_str, ht]

/-- Witness of C19: the values `1`, `2` and the values `drop table t`, `;`. -/
theorem text_ignores_values_witness :
    (sqlXY.In goGrowCap heapXY "id" ["1", "2"]).1.str
        = (sqlXY.In goGrowCap heapXY "id" ["drop table t", ";"]).1.str
    ∧ (sqlXY.AndIn goGrowCap heapXY "id" ["1", "2"]).1.str
        = (sqlXY.AndIn goGrowCap heapXY "id" ["drop table t", ";"]).1.str :=
  text_ignores_values goGrowCap heapXY sqlXY "id" ["1", "2"] ["drop table t", ";"] rfl

/-- C20 (the code differs): with `a` over `arr[:1]`, `c` over `arr[1:]` of the
same array `["x","y"]` and `b` showing `b`, `ConcatSQL(ConcatSQL(a, b), c)`
shows `x, b, b` and `ConcatSQL(a, ConcatSQL(b, c))` shows `x, b, y`: the inner
`ConcatSQL(a, b)` appends in place and overwrites the element `c` shows. The
texts agree. -/
theorem ConcatSQL_assoc_fails (g : Nat → Nat → Nat) :
    heapShared.read sqlHead.params = [Any.str "x"]
    ∧ heapShared.read sqlMid.params = [Any.str "b"]
    ∧ heapShared.read sqlTail.params = [Any.str "y"]
    ∧ ((sqlHead.ConcatSQL g heapShared sqlMid).1.ConcatSQL g
          (sqlHead.ConcatSQL g heapShared sqlMid).2 sqlTail).2.read
        ((sqlHead.ConcatSQL g heapShared sqlMid).1.ConcatSQL g
          (sqlHead.ConcatSQL g heapShared sqlMid).2 sqlTail).1.params
      = [Any.str "x", Any.str "b", Any.str "b"]
    ∧ (sqlHead.ConcatSQL g (sqlMid.ConcatSQL g heapShared sqlTail).2
          (sqlMid.ConcatSQL g heapShared sqlTail).1).2.read
        (sqlHead.ConcatSQL g (sqlMid.ConcatSQL g heapShared sqlTail).2
          (sqlMid.ConcatSQL g heapShared sqlTail).1).1.params
      = [Any.str "x", Any.str "b", Any.str "y"]
    ∧ ((sqlHead.ConcatSQL g heapShared sqlMid).1.ConcatSQL g
          (sqlHead.ConcatSQL g heapShared sqlMid).2 sqlTail).1.str = "ABC"
    ∧ (sqlHead.ConcatSQL g (sqlMid.ConcatSQL g heapShared sqlTail).2
          (sqlMid.ConcatSQL g heapShared sqlTail).1).1.str = "ABC" := by
  refine ⟨rfl, rfl, rfl, rfl, rfl, rfl, rfl⟩

end Pgx
